import Mathlib

/-!
Verification of the DBA_FullBackup_Reader core against its specification.

The C++ sources under `src/` are shallowly embedded: machine integers are
modelled as `Nat` (with explicit `% 2^w` where overflow matters, and with
comments where the C `int` arithmetic is non-negative over the relevant
input range so that `Nat` arithmetic coincides with it), byte buffers are
`List Nat` (each element a byte value), and fallible operations return
`Option`/`Except`.
-/

namespace BakRead

/-! ## Byte-buffer primitives

A buffer is a `List Nat`; `byteAt` is the unchecked byte read (`memcpy`
semantics on indices that are in range in the C++ code). -/

/-- Read the byte at index `i` (0 when out of range; all modelled reads are
in range in the corresponding C++ code paths). -/
def byteAt (b : List Nat) (i : Nat) : Nat := b.getD i 0

/-- Little-endian 16-bit read at offset `i` (C++ `memcpy(&v, p + i, 2)`). -/
def readU16 (b : List Nat) (i : Nat) : Nat :=
  byteAt b i + 256 * byteAt b (i + 1)

/-- Little-endian 32-bit read at offset `i` (C++ `memcpy(&v, p + i, 4)`). -/
def readU32 (b : List Nat) (i : Nat) : Nat :=
  byteAt b i + 256 * byteAt b (i + 1) + 65536 * byteAt b (i + 2) +
    16777216 * byteAt b (i + 3)

/-- Little-endian 64-bit read at offset `i` (C++ `memcpy(&v, p + i, 8)`). -/
def readU64 (b : List Nat) (i : Nat) : Nat :=
  readU32 b i + 4294967296 * readU32 b (i + 4)

/-- Little-endian encoding of `v` into `w` bytes (C++ writing an integer
field of width `w` to a file). -/
def leBytes (w v : Nat) : List Nat :=
  match w with
  | 0 => []
  | w + 1 => v % 256 :: leBytes w (v / 256)

/-! ## C2 — `date` decoding (`src/src/row_decoder.cpp`, `days_to_ymd` and
`RowDecoder::decode_date`)

The C++ `days_to_ymd` works on `int`.  `decode_date` only ever calls it
with the 24-bit unsigned day number of a `DATE` value, so `days` is in
`[0, 2^24)` and every intermediate value of the algorithm is a
non-negative `int`; over that range C truncating division and subtraction
coincide with `Nat` division and subtraction, which is what this embedding
uses. -/

/-- `days_to_ymd` from `src/src/row_decoder.cpp:17`: `days += 305`, then the
era/day-of-era/year-of-era/day-of-year/month-prime chain, `y = yoe +
era*400 + 1`, and a final `++y` when the month lands in January or
February. Returns `(y, m, d)`. -/
def days_to_ymd (days0 : Nat) : Nat × Nat × Nat :=
  let days := days0 + 305
  let era := days / 146097
  let doe := days - era * 146097
  let yoe := (doe - doe / 1460 + doe / 36524 - doe / 146096) / 365
  let y := yoe + era * 400 + 1
  let doy := doe - (365 * yoe + yoe / 4 - yoe / 100)
  let mp := (5 * doy + 2) / 153
  let d := doy - (153 * mp + 2) / 5 + 1
  let m := if mp < 10 then mp + 3 else mp - 9
  (if m ≤ 2 then y + 1 else y, m, d)

/-- Zero-pad the decimal rendering of `n` to width `w` (C `%0*d`). -/
def zeroPad (w n : Nat) : String :=
  let s := toString n
  String.mk (List.replicate (w - s.length) '0') ++ s

/-- `RowDecoder::decode_date` (`src/src/row_decoder.cpp:517`): take the
low 24 bits of the first three bytes little-endian, run `days_to_ymd`,
render `"%04d-%02d-%02d"`. -/
def decode_date (data : List Nat) : String :=
  let date_val := (byteAt data 0 + 256 * byteAt data 1 +
      65536 * byteAt data 2) % 16777216
  let ymd := days_to_ymd date_val
  zeroPad 4 ymd.1 ++ "-" ++ zeroPad 2 ymd.2.1 ++ "-" ++ zeroPad 2 ymd.2.2

/-! ## C10 — UTF-16LE → UTF-8 conversion
(`src/src/row_decoder.cpp:364`, `RowDecoder::utf16le_to_utf8`)

The C++ loop walks the byte buffer two bytes at a time (`i + 1 < byte_len`,
so a trailing odd byte is never read), stops at the first 0x0000 code unit,
and emits 1/2/3-byte UTF-8 sequences, pairing a high surrogate with an
immediately following low surrogate (when `i + 3 < byte_len`) into a
4-byte sequence. -/

/-- `RowDecoder::utf16le_to_utf8`, translated structurally: each step
consumes one UTF-16LE code unit (two bytes), or two units for a valid
surrogate pair. Output is the list of UTF-8 byte values pushed. -/
def utf16le_to_utf8 : List Nat → List Nat
  | b0 :: b1 :: b2 :: b3 :: rest2 =>
    -- at least four bytes left: `i + 3 < byte_len`, a surrogate pair fits
    let ch := b0 + 256 * b1
    if ch = 0 then []
    else if ch < 0x80 then ch :: utf16le_to_utf8 (b2 :: b3 :: rest2)
    else if ch < 0x800 then
      (0xC0 ||| (ch >>> 6)) :: (0x80 ||| (ch &&& 0x3F)) ::
        utf16le_to_utf8 (b2 :: b3 :: rest2)
    else
      let low := b2 + 256 * b3
      if 0xD800 ≤ ch ∧ ch ≤ 0xDBFF ∧ 0xDC00 ≤ low ∧ low ≤ 0xDFFF then
        let cp := 0x10000 + (ch - 0xD800) * 1024 + (low - 0xDC00)
        (0xF0 ||| (cp >>> 18)) :: (0x80 ||| ((cp >>> 12) &&& 0x3F)) ::
          (0x80 ||| ((cp >>> 6) &&& 0x3F)) :: (0x80 ||| (cp &&& 0x3F)) ::
          utf16le_to_utf8 rest2
      else
        (0xE0 ||| (ch >>> 12)) :: (0x80 ||| ((ch >>> 6) &&& 0x3F)) ::
          (0x80 ||| (ch &&& 0x3F)) :: utf16le_to_utf8 (b2 :: b3 :: rest2)
  | b0 :: b1 :: rest =>
    -- two or three bytes left: `i + 3 < byte_len` fails, no pair possible
    let ch := b0 + 256 * b1
    if ch = 0 then []
    else if ch < 0x80 then ch :: utf16le_to_utf8 rest
    else if ch < 0x800 then
      (0xC0 ||| (ch >>> 6)) :: (0x80 ||| (ch &&& 0x3F)) :: utf16le_to_utf8 rest
    else
      (0xE0 ||| (ch >>> 12)) :: (0x80 ||| ((ch >>> 6) &&& 0x3F)) ::
        (0x80 ||| (ch &&& 0x3F)) :: utf16le_to_utf8 rest
  | _ => []

/-- Spec-side (claim C10 wording): the UTF-16 code units of the buffer,
two bytes each little-endian; a trailing odd byte is ignored. -/
def utf16Units : List Nat → List Nat
  | b0 :: b1 :: rest => (b0 + 256 * b1) :: utf16Units rest
  | _ => []

/-- Spec-side (claim C10 wording): the code units preceding the first
0x0000 unit. -/
def unitsBeforeNul (us : List Nat) : List Nat := us.takeWhile (· ≠ 0)

/-- Spec-side (claim C10 wording): UTF-8-encode a list of UTF-16 code
units, combining a high surrogate followed by a low surrogate into one
4-byte sequence. -/
def encodeUnits : List Nat → List Nat
  | ch :: low :: rest2 =>
    if ch < 0x80 then ch :: encodeUnits (low :: rest2)
    else if ch < 0x800 then
      (0xC0 ||| (ch >>> 6)) :: (0x80 ||| (ch &&& 0x3F)) ::
        encodeUnits (low :: rest2)
    else if 0xD800 ≤ ch ∧ ch ≤ 0xDBFF ∧ 0xDC00 ≤ low ∧ low ≤ 0xDFFF then
      let cp := 0x10000 + (ch - 0xD800) * 1024 + (low - 0xDC00)
      (0xF0 ||| (cp >>> 18)) :: (0x80 ||| ((cp >>> 12) &&& 0x3F)) ::
        (0x80 ||| ((cp >>> 6) &&& 0x3F)) :: (0x80 ||| (cp &&& 0x3F)) ::
        encodeUnits rest2
    else
      (0xE0 ||| (ch >>> 12)) :: (0x80 ||| ((ch >>> 6) &&& 0x3F)) ::
        (0x80 ||| (ch &&& 0x3F)) :: encodeUnits (low :: rest2)
  | [ch] =>
    if ch < 0x80 then [ch]
    else if ch < 0x800 then
      [0xC0 ||| (ch >>> 6), 0x80 ||| (ch &&& 0x3F)]
    else
      [0xE0 ||| (ch >>> 12), 0x80 ||| ((ch >>> 6) &&& 0x3F),
        0x80 ||| (ch &&& 0x3F)]
  | [] => []

/-! ## C6 — SQL Server LZ decompressor
(`src/src/decompressor.cpp:93`, `Decompressor::decompress_sqlserver_lz`)

The decoder is embedded with its output buffer as the list of bytes
written so far (`di = out.length`, every write is an append), plus a
*ghost* trace of match events `(pos, off, len)`: `pos` is the output
length when the match descriptor was decoded, `off` its decoded offset,
and `len` the number of bytes the copy appended (or, for a refused
match, its decoded length).  The trace changes nothing about the
computed output and return value; it only names the copies so the
claimed per-copy property can be stated. -/

structure LzEvent where
  pos : Nat
  off : Nat
  len : Nat
deriving DecidableEq, Repr

/-- Result of the inner 32-item loop: `halt` models the C++ `return`
statements inside the loop (with the returned byte count), `cont` falls
back to the outer `while`. -/
inductive LzStep where
  | halt (ret : Nat) (out : List Nat) (evs : List LzEvent)
  | cont (si : Nat) (out : List Nat) (evs : List LzEvent)
deriving DecidableEq, Repr

/-- Prepend a ghost event to a step result. -/
def lzPush (e : LzEvent) : LzStep → LzStep
  | .halt r o evs => .halt r o (e :: evs)
  | .cont s o evs => .cont s o (e :: evs)

/-- The byte-by-byte match copy (`for j < match_length && di < cap`):
each step appends `out[di - off]` — reading only already-written output
when `off ≤ out.length`. -/
def copyMatch (out : List Nat) (off len cap : Nat) : List Nat :=
  match len with
  | 0 => out
  | l + 1 =>
    if out.length < cap then
      copyMatch (out ++ [out.getD (out.length - off) 0]) off l cap
    else out

/-- The extended-length decoding of a match descriptor `d` whose low
three bits are all set: reads the extra byte / 16-bit / 32-bit length
fields starting at `si1`. `none` models the C++ `return di` on a
truncated source; `some (si', len)` gives the source position after the
length fields and the final match length. -/
def lzExtLen (src : List Nat) (si1 d : Nat) : Option (Nat × Nat) :=
  if d &&& 7 = 7 then
    if si1 ≥ src.length then none
    else if byteAt src si1 = 255 then
      if si1 + 3 > src.length then none
      else if readU16 src (si1 + 1) = 0 then
        if si1 + 7 > src.length then none
        else some (si1 + 7, readU32 src (si1 + 3))
      else some (si1 + 3, readU16 src (si1 + 1))
    else some (si1 + 1, byteAt src si1 + 10)
  else some (si1, (d &&& 7) + 3)

/-- The inner `for (bit = 0; bit < 32 && si < src_len && di < cap)` loop.
The bit counter is modelled by the number `n` of items left in the group
and by shifting `flags` right one bit per item (the C++ tests
`flags & (1u << bit)` with `bit` ascending, which tests the same bit
sequence). -/
def lzInner (src : List Nat) (cap : Nat) :
    Nat → Nat → Nat → List Nat → LzStep
  | 0, _flags, si, out => .cont si out []
  | n + 1, flags, si, out =>
    if si < src.length ∧ out.length < cap then
      if flags &&& 1 = 0 then
        -- literal byte
        lzInner src cap n (flags >>> 1) (si + 1) (out ++ [byteAt src si])
      else
        -- match reference; its offset is `(desc >> 3) + 1`
        if si + 2 > src.length then .halt out.length out []
        else
          match lzExtLen src (si + 2) (readU16 src si) with
          | none => .halt out.length out []
          | some (si2, len) =>
            if (readU16 src si >>> 3) + 1 > out.length then
              .halt 0 out [⟨out.length, (readU16 src si >>> 3) + 1, len⟩]
            else
              lzPush ⟨out.length, (readU16 src si >>> 3) + 1,
                  (copyMatch out ((readU16 src si >>> 3) + 1) len cap).length -
                    out.length⟩
                (lzInner src cap n (flags >>> 1) si2
                  (copyMatch out ((readU16 src si >>> 3) + 1) len cap))
    else .cont si out []

/-- The outer `while (si < src_len && di < dst_capacity)` loop: read the
32-bit flags dword, run the 32-item group, stop on a halt from the group
or when the loop condition fails (`return di`). The loop consumes at
least four source bytes per iteration, so it runs at most
`src.length / 4 + 1` times; `fuel` is a structural bound on the number
of iterations, and `lzOuter_fuel_stable` shows the result does not
depend on it once it covers that bound (the exhaustion value equals the
loop-exit value). -/
def lzOuter (src : List Nat) (cap : Nat) :
    Nat → Nat → List Nat → Nat × List Nat × List LzEvent
  | 0, _si, out => (out.length, out, [])
  | fuel + 1, si, out =>
    if si < src.length ∧ out.length < cap then
      if si + 4 > src.length then (out.length, out, [])
      else
        match lzInner src cap 32 (readU32 src si) (si + 4) out with
        | .halt r o evs => (r, o, evs)
        | .cont si' o evs =>
          let rest := lzOuter src cap fuel si' o
          (rest.1, rest.2.1, evs ++ rest.2.2)
    else (out.length, out, [])

/-- `Decompressor::decompress_sqlserver_lz`: result is
`(return value, bytes written to dst, ghost match-event trace)`. -/
def decompress_sqlserver_lz (src : List Nat) (cap : Nat) :
    Nat × List Nat × List LzEvent :=
  if src.length < 4 then (0, [], [])
  else lzOuter src cap (src.length + 1) 0 []

/-- The output component of a step result. -/
def LzStep.outList : LzStep → List Nat
  | .halt _ o _ => o
  | .cont _ o _ => o

/-- The ghost-event component of a step result. -/
def LzStep.evsList : LzStep → List LzEvent
  | .halt _ _ e => e
  | .cont _ _ e => e

/-- The claimed control property on a step result: a refused match
(decoded offset beyond the written output) forces the C++ return value
0, and a result that falls back to the outer loop has no refused match
in its trace. -/
def LzStep.refuseOk : LzStep → Prop
  | .halt r _ evs => (∃ e ∈ evs, e.pos < e.off) → r = 0
  | .cont _ _ evs => ∀ e ∈ evs, e.off ≤ e.pos

/-- A ghost event is realized in an output list when the copied region
is in bounds and every copied byte equals the byte `off` positions
earlier. -/
def eventRealized (l : List Nat) (e : LzEvent) : Prop :=
  e.off ≤ e.pos →
    e.pos + e.len ≤ l.length ∧
      ∀ k, k < e.len → l.getD (e.pos + k) 0 = l.getD (e.pos + k - e.off) 0

/-! ## C7 — page index sidecar persistence
(`src/src/page_index.cpp:84` `PageIndex::save_to_file`,
`src/src/page_index.cpp:122` `PageIndex::load_from_file`,
layout from `src/include/bakread/page_index.h`)

A page-index state is its entry map in iteration order: a list of
`(key, entry)` pairs (`int64` key, 16-byte `PageIndexEntry`).  The
sidecar file is the byte list the C++ writes: the 64-byte
`IndexFileHeader` followed by 24-byte `(key, entry)` records, every
field little-endian.  The entry's two reserved bytes are always zero
(entries are value-initialized and the pad is never written). -/

structure PageIndexEntry where
  stripe_index : Nat  -- uint8_t
  page_type : Nat     -- uint8_t
  object_id : Nat     -- uint32_t
  file_offset : Nat   -- uint64_t
deriving DecidableEq, Repr

/-- The machine-width bounds of the C++ struct fields. -/
def entryWF (e : PageIndexEntry) : Prop :=
  e.stripe_index < 256 ∧ e.page_type < 256 ∧
    e.object_id < 4294967296 ∧ e.file_offset < 18446744073709551616

/-- The raw 16 bytes of a `PageIndexEntry` (`file.write(&entry, 16)`). -/
def entryBytes (e : PageIndexEntry) : List Nat :=
  leBytes 1 e.stripe_index ++ leBytes 1 e.page_type ++ [0, 0] ++
    leBytes 4 e.object_id ++ leBytes 8 e.file_offset

/-- `"BAKRIDX\0"`. -/
def magicBytes : List Nat := [66, 65, 75, 82, 73, 68, 88, 0]

/-- The 64-byte `IndexFileHeader` written by `save_to_file`: magic,
`version = 1`, `entry_count` (`uint32_t` cast of the map size),
`total_pages`, `data_pages` (`page_type == Data = 1`), `system_pages`
(`page_type == System = 5`), 24 reserved zero bytes. -/
def indexHeaderBytes (entries : List (Nat × PageIndexEntry)) : List Nat :=
  magicBytes ++ leBytes 4 1 ++ leBytes 4 entries.length ++
    leBytes 8 entries.length ++
    leBytes 8 (entries.countP (fun p => p.2.page_type = 1)) ++
    leBytes 8 (entries.countP (fun p => p.2.page_type = 5)) ++
    List.replicate 24 0

/-- `PageIndex::save_to_file`: header then one `(key, entry)` record per
map entry, in iteration order. -/
def save_to_file (entries : List (Nat × PageIndexEntry)) : List Nat :=
  indexHeaderBytes entries ++
    entries.flatMap (fun p => leBytes 8 p.1 ++ entryBytes p.2)

/-- Read `n` sidecar records of 24 bytes each (`file.read` of key and
entry in a loop). `none` models reading past the end of the file, where
the C++ would fill the record from an unfinished `file.read`; a file
produced by `save_to_file` always has all its records. -/
def parseIndexRecords : Nat → List Nat → Option (List (Nat × PageIndexEntry))
  | 0, _ => some []
  | n + 1, bytes =>
    if bytes.length < 24 then none
    else
      match parseIndexRecords n (bytes.drop 24) with
      | none => none
      | some rest =>
        some ((readU64 bytes 0,
          ⟨byteAt bytes 8, byteAt bytes 9, readU32 bytes 12,
            readU64 bytes 16⟩) :: rest)

/-- `PageIndex::load_from_file`: check `memcmp(magic, "BAKRIDX", 7)` and
`version == 1`, then read `entry_count` records. `none` models the
C++ `return false` paths (and a file shorter than its own header, which
the C++ would read as garbage; `save_to_file` never produces one). -/
def load_from_file (bytes : List Nat) : Option (List (Nat × PageIndexEntry)) :=
  if bytes.length < 64 then none
  else if bytes.take 7 ≠ magicBytes.take 7 then none
  else if readU32 bytes 8 ≠ 1 then none
  else parseIndexRecords (readU32 bytes 12) (bytes.drop 64)

instance (e : PageIndexEntry) : Decidable (entryWF e) := by
  unfold entryWF
  infer_instance

/-- A page-index state with exactly `2^32` entries, used to exhibit the
`uint32_t` truncation of `entry_count` in `save_to_file`. -/
def hugeIndexState : List (Nat × PageIndexEntry) :=
  (List.range 4294967296).map (fun k => (k, ⟨0, 1, 34, 8192⟩))

/-! ## C3 — row streaming, phase 4
(`src/src/direct_extractor.cpp:476`, `DirectExtractor::phase_extract_rows`)

The candidate pages are modelled by their decoded row lists, in
iteration order (`decoder.decode_page` output per page; `decoded <= 0`
is exactly "the row list is empty").  `max_rows` is `none` for the C++
`max_rows_ = -1` (unlimited) and `some m` for `max_rows_ = m ≥ 0`.  The
result is `(total_rows, trace)` where `trace` is the ghost list of rows
passed to the consumer callback, in call order. -/

/-- Whether the C++ guard `max_rows_ >= 0 && total_rows >= max_rows_`
holds. -/
def maxReached (max_rows : Option Nat) (total : Nat) : Bool :=
  match max_rows with
  | some m => total ≥ m
  | none => false

/-- The inner `for (auto& row : rows)` loop: check the row cap, deliver
the row to the callback, `break` (only out of this loop) when the
callback returns stop, else count the row. -/
def extractPageRows {α : Type} (callback : α → Bool)
    (max_rows : Option Nat) : List α → Nat → Nat × List α
  | [], total => (total, [])
  | r :: rs, total =>
    if maxReached max_rows total then (total, [])
    else if ¬ callback r then (total, [r])
    else
      let rest := extractPageRows callback max_rows rs (total + 1)
      (rest.1, r :: rest.2)

/-- The outer `for (auto key : candidate_pages)` loop of
`phase_extract_rows`: skip pages that decoded no rows, run the inner
loop, and `break` out of the page loop only on the row cap — a consumer
"stop" does not reach this check. -/
def phase_extract_rows {α : Type} (callback : α → Bool)
    (max_rows : Option Nat) : List (List α) → Nat → Nat × List α
  | [], total => (total, [])
  | page :: pages, total =>
    if page.length = 0 then phase_extract_rows callback max_rows pages total
    else
      let inner := extractPageRows callback max_rows page total
      if maxReached max_rows inner.1 then (inner.1, inner.2)
      else
        let rest := phase_extract_rows callback max_rows pages inner.1
        (rest.1, inner.2 ++ rest.2)

/-! ## C1 — scan-phase candidate windows
(`src/src/indexed_page_store.cpp:199` `IndexedPageStore::scan_stripe`,
`src/src/direct_extractor.cpp:288` and `:331`
`DirectExtractor::phase_load_pages`)

Both scans walk 8 KiB windows over a read chunk and insert those whose
first 96 bytes pass a per-window test; the chunk/stripe framing only
chooses which byte ranges become windows, so the scans are modelled as
the window walk over one chunk, returning one `(this_file, this_page,
window_start)` triple per inserted window.  Header fields (layout from
`src/include/bakread/page.h`): `header_version` at byte 0, `type` at 1,
`slot_count` at 22, `free_count` at 28, `this_page` at 32 (u32),
`this_file` at 36 (u16). -/

/-- The 8 KiB window starting at byte `off` of a chunk. -/
def window (chunk : List Nat) (off : Nat) : List Nat :=
  (chunk.drop off).take 8192

/-- The window start offsets of the loop
`for (off = 0; off + PAGE_SIZE <= len; off += step)`. -/
def windowStarts (len step : Nat) : List Nat :=
  if 8192 ≤ len then List.range' 0 ((len - 8192) / step + 1) step else []

/-- The per-window walk of `IndexedPageStore::scan_stripe`
(`indexed_page_store.cpp:199-224`): a window is inserted into the page
index iff `this_page != 0 || this_file != 0` — none of the other header
checks are made in indexed mode.  (The inserted entry's `page_type` /
`object_id` classification is omitted: the claim is about which windows
are inserted.) -/
def scan_stripe_pages (chunk : List Nat) : List (Nat × Nat × Nat) :=
  (windowStarts chunk.length 8192).filterMap (fun off =>
    if readU32 (window chunk off) 32 ≠ 0 ∨ readU16 (window chunk off) 36 ≠ 0
    then some (readU16 (window chunk off) 36, readU32 (window chunk off) 32,
      off)
    else none)

/-- The per-window walk of the non-indexed
`DirectExtractor::phase_load_pages` (`direct_extractor.cpp:288-300`; the
512-byte retry pass at `:331-344` uses the same guards with
`step = 512`): a window is cached iff `header_version == 1`,
`1 ≤ type ≤ 17`, `1 ≤ this_file ≤ 32`, `slot_count ≤ 1000` and
`free_count ≤ PAGE_SIZE`. -/
def phase_load_cached_pages (chunk : List Nat) (step : Nat) :
    List (Nat × Nat × Nat) :=
  (windowStarts chunk.length step).filterMap (fun off =>
    if byteAt (window chunk off) 0 = 1 ∧
        1 ≤ byteAt (window chunk off) 1 ∧ byteAt (window chunk off) 1 ≤ 17 ∧
        1 ≤ readU16 (window chunk off) 36 ∧
        readU16 (window chunk off) 36 ≤ 32 ∧
        readU16 (window chunk off) 22 ≤ 1000 ∧
        readU16 (window chunk off) 28 ≤ 8192
    then some (readU16 (window chunk off) 36, readU32 (window chunk off) 32,
      off)
    else none)

/-! ## C8 — FixedVar record decoding
(`src/src/row_decoder.cpp:126`, `RowDecoder::decode_row`, with the
constructor's fixed-offset precomputation at `:76` and the type
predicates from `src/include/bakread/types.h`)

The claim is about the null token, so a decoded value is represented by
its SQL type together with the byte slice the decoder reads
(`RowValue.val`), the `"[LOB data]"` placeholder (`RowValue.lob`), or
the null token; `bytes_to_value`'s per-type minimum-length checks — the
only paths on which it yields the null token — are translated exactly.
`decode_row`'s `max_len` is `PAGE_SIZE - record_offset`; its callers
(`decode_page`) only pass offsets below `PAGE_SIZE - 2`, where the
`size_t` arithmetic equals the `Nat` one used here. -/

inductive SqlType where
  | Unknown | TinyInt | SmallInt | IntTy | BigInt | Bit | FloatTy | Real
  | Decimal | Numeric | Money | SmallMoney | Date | Time | DateTime
  | DateTime2 | SmallDateTime | DateTimeOffset | CharTy | VarChar | NChar
  | NVarChar | Text | NText | Binary | VarBinary | Image | UniqueId
  | Xml | Timestamp | Sql_Variant
deriving DecidableEq, Repr

/-- `is_fixed_length` (`types.h:51`). -/
def is_fixed_length : SqlType → Bool
  | .TinyInt | .SmallInt | .IntTy | .BigInt | .Bit | .FloatTy | .Real
  | .Money | .SmallMoney | .Date | .Time | .DateTime | .DateTime2
  | .DateTimeOffset | .SmallDateTime | .UniqueId | .Timestamp
  | .Decimal | .Numeric | .CharTy | .NChar | .Binary => true
  | _ => false

/-- `is_lob` (`types.h:86`). -/
def is_lob : SqlType → Bool
  | .Text | .NText | .Image | .Xml => true
  | _ => false

/-- The `ColumnDef` fields `decode_row` reads (`max_length` and
`leaf_offset` are non-negative for any schema the catalog produces). -/
structure ColumnDef where
  type : SqlType
  max_length : Nat
  leaf_offset : Nat
  scale : Nat
deriving DecidableEq, Repr

inductive RowValue where
  | null
  | lob
  | val (t : SqlType) (bytes : List Nat)
deriving DecidableEq, Repr

/-- The constructor loop of `RowDecoder` (`row_decoder.cpp:76`):
starting at `cur_offset = 4`, assign each fixed non-LOB column its
`leaf_offset` when positive (else the running offset) and advance by
`max_length`; other columns go to the variable-column index list.
Returns `(fixed (column index, byte offset) pairs, var column
indices)`. -/
def computeColClasses : List ColumnDef → Nat → Nat →
    List (Nat × Nat) × List Nat
  | [], _, _ => ([], [])
  | c :: cs, i, cur =>
    if is_fixed_length c.type ∧ ¬ is_lob c.type then
      let off := if 0 < c.leaf_offset then c.leaf_offset else cur
      let rest := computeColClasses cs (i + 1) (off + c.max_length)
      ((i, off) :: rest.1, rest.2)
    else
      let rest := computeColClasses cs (i + 1) cur
      (rest.1, i :: rest.2)

/-- `bytes_to_value` (`row_decoder.cpp:269`): the null token exactly on
a zero-length slice or a slice shorter than the type's fixed width; any
other slice yields a (tagged) value. -/
def bytes_to_value (t : SqlType) (bytes : List Nat) : RowValue :=
  if bytes.length = 0 then .null
  else
    match t with
    | .TinyInt => if bytes.length < 1 then .null else .val t bytes
    | .SmallInt => if bytes.length < 2 then .null else .val t bytes
    | .IntTy => if bytes.length < 4 then .null else .val t bytes
    | .BigInt => if bytes.length < 8 then .null else .val t bytes
    | .Real => if bytes.length < 4 then .null else .val t bytes
    | .FloatTy => if bytes.length < 8 then .null else .val t bytes
    | .Money => if bytes.length < 8 then .null else .val t bytes
    | .SmallMoney => if bytes.length < 4 then .null else .val t bytes
    | .UniqueId => if bytes.length < 16 then .null else .val t bytes
    | .Date => if bytes.length < 3 then .null else .val t bytes
    | .DateTime => if bytes.length < 8 then .null else .val t bytes
    | .SmallDateTime => if bytes.length < 4 then .null else .val t bytes
    | _ => .val t bytes

/-- The null-bitmap area of a record (`row_decoder.cpp:148-170`):
its byte size (0 when absent or unreadable; the C++ sets
`null_area_size` as soon as the 2-byte column count is readable) and
the per-column null bit (false whenever the bitmap bytes do not fit in
`max_len`). -/
def null_area_info (page : List Nat) (offset fixed_end max_len : Nat)
    (has : Bool) (ncols : Nat) : Nat × (Nat → Bool) :=
  if has ∧ fixed_end + 2 ≤ max_len then
    let cnt := readU16 page (offset + fixed_end)
    let area := 2 + (cnt + 7) / 8
    if fixed_end + area ≤ max_len then
      (area, fun col =>
        col < ncols ∧ col < cnt ∧
          (byteAt page (offset + fixed_end + 2 + col / 8) >>>
            (col % 8)) &&& 1 = 1)
    else (area, fun _ => false)
  else (0, fun _ => false)

/-- The null bit `decode_row` computes for column `col` of the record
at `offset` (the `null_bits` vector of `row_decoder.cpp:151-170`). -/
def record_null_bits (ncols : Nat) (page : List Nat) (offset : Nat)
    (col : Nat) : Bool :=
  (null_area_info page offset (readU16 page (offset + 2)) (8192 - offset)
    (byteAt page offset &&& 0x10 ≠ 0) ncols).2 col

/-- The variable-column end-offset array (`row_decoder.cpp:177-187`):
`var_col_count` two-byte reads starting at `pos`, stopping (and leaving
the `resize`d zeros) when a read would cross `max_len`; also returns
the final cursor, which becomes `var_data_start_offset`. -/
def readVarOffsets (page : List Nat) (offset max_len : Nat) :
    Nat → Nat → List Nat × Nat
  | 0, pos => ([], pos)
  | n + 1, pos =>
    if pos + 2 > max_len then (List.replicate (n + 1) 0, pos)
    else
      let rest := readVarOffsets page offset max_len n (pos + 2)
      (readU16 page (offset + pos) :: rest.1, rest.2)

/-- The fixed-column branch of the column loop
(`row_decoder.cpp:193-214`). -/
def decodeFixedCol (page : List Nat) (offset fixed_end : Nat)
    (c : ColumnDef) (data_offset0 : Nat) : RowValue :=
  let data_offset := if data_offset0 < 4 then 4 else data_offset0
  if fixed_end ≤ data_offset then .null
  else
    bytes_to_value c.type
      ((page.drop (offset + data_offset)).take
        (min (fixed_end - data_offset) c.max_length))

/-- The variable-column branch of the column loop
(`row_decoder.cpp:217-254`). -/
def decodeVarCol (page : List Nat) (offset max_len : Nat)
    (c : ColumnDef) (var_data_start : Nat) (var_end_offsets : List Nat)
    (vi : Nat) : RowValue :=
  if var_end_offsets.length ≤ vi then .null
  else
    let end_off0 := var_end_offsets.getD vi 0
    let start_off := if vi = 0 then var_data_start
      else var_end_offsets.getD (vi - 1) 0
    if end_off0 &&& 0x8000 ≠ 0 then .lob
    else if end_off0 &&& 0x7FFF ≤ start_off ∨
        max_len < end_off0 &&& 0x7FFF then .null
    else
      bytes_to_value c.type
        ((page.drop (offset + start_off)).take
          ((end_off0 &&& 0x7FFF) - start_off))

/-- `RowDecoder::decode_row` (`row_decoder.cpp:126`): `none` models the
`return false` paths; otherwise the row has one value per schema
column, each column decoded by its class's branch (the two C++ loops
fill disjoint row slots; here the row is assembled slot by slot). -/
def decode_row (cols : List ColumnDef) (page : List Nat)
    (offset : Nat) : Option (List RowValue) :=
  let max_len := 8192 - offset
  if max_len < 4 then none
  else
    let statusA := byteAt page offset
    let fixed_end := readU16 page (offset + 2)
    if max_len < fixed_end then none
    else
      let nai := null_area_info page offset fixed_end max_len
        (statusA &&& 0x10 ≠ 0) cols.length
      let classes := computeColClasses cols 0 4
      let varRead :=
        if statusA &&& 0x20 ≠ 0 ∧ fixed_end + nai.1 + 2 ≤ max_len then
          readVarOffsets page offset max_len
            (readU16 page (offset + fixed_end + nai.1))
            (fixed_end + nai.1 + 2)
        else ([], fixed_end + nai.1)
      some ((List.range cols.length).map (fun ci =>
        if nai.2 ci then .null
        else
          match (classes.1.lookup ci) with
          | some data_offset =>
            decodeFixedCol page offset fixed_end
              (cols.getD ci ⟨.Unknown, 0, 0, 0⟩) data_offset
          | none =>
            decodeVarCol page offset max_len
              (cols.getD ci ⟨.Unknown, 0, 0, 0⟩) varRead.2 varRead.1
              (classes.2.indexOf ci)))

/-! ## C4 — catalog reconstruction
(`src/src/catalog_reader.cpp:37` `CatalogReader::scan_catalog`, with
`read_boot_page`, `scan_system_objects` (`:102`),
`scan_system_columns` (`:229`), `scan_rowset_allocunit_mapping`
(`:381`))

The page corpus is the page provider: `corpus file_id page_id` is
`none` when `page_provider_` fails, else the 8 KiB page as a byte
function.  The catalog record parsers only index into the page, so a
function representation is exact.  The claim is about the `objects_`,
`columns_` and `obj_to_page_objid_` maps, so `CatalogState` carries
exactly those three (the other sub-scans of `scan_catalog` — indexes,
allocation units, modules, principals, role members, permissions —
never write them and are omitted).  `int32`/`int64` fields are read as
unsigned `Nat`s; the C++ signed comparisons (`obj_id <= 0`,
`schema_id > 65536`, `idminor <= 1`, `idmajor > 0`) are translated with
the explicit two-sided bounds they denote on the unsigned bit
pattern. -/

/-- 16-bit little-endian read from a page function. -/
def pageU16 (p : Nat → Nat) (i : Nat) : Nat := p i + 256 * p (i + 1)

/-- 32-bit little-endian read from a page function. -/
def pageU32 (p : Nat → Nat) (i : Nat) : Nat :=
  pageU16 p i + 65536 * pageU16 p (i + 2)

/-- 64-bit little-endian read from a page function. -/
def pageU64 (p : Nat → Nat) (i : Nat) : Nat :=
  pageU32 p i + 4294967296 * pageU32 p (i + 4)

structure SystemObject where
  object_id : Nat
  schema_id : Nat
  name : List Nat
  type0 : Nat
  type1 : Nat
deriving DecidableEq, Repr

structure SystemColumn where
  object_id : Nat
  column_id : Nat
  system_type_id : Nat
  max_length : Nat
  precision : Nat
  scale : Nat
  name : List Nat
deriving DecidableEq, Repr

structure CatalogState where
  objects : Nat → Option SystemObject
  columns : Nat → List SystemColumn
  obj_to_page_objid : Nat → Option Nat

/-- The fresh reader's state (empty maps). -/
def initCatalogState : CatalogState :=
  ⟨fun _ => none, fun _ => [], fun _ => none⟩

/-- Fold a list of `(key, value)` assignments over a map, last writer
wins (`map_[key] = value` in a loop). -/
def updPairs {B : Type} (m : Nat → Option B) (ps : List (Nat × B)) :
    Nat → Option B :=
  ps.foldl (fun m p => fun j => if j = p.1 then some p.2 else m j) m

/-- The name-extraction character loop of `scan_system_objects`
(`catalog_reader.cpp:188-199`): stop at NUL or a control character,
keep printable ASCII, replace non-ASCII by `'?'`.  `fuel` bounds the
at most `name_len/2` iterations. -/
def objNameChars (p : Nat → Nat) (ns name_len : Nat) :
    Nat → Nat → List Nat
  | 0, _ => []
  | fuel + 1, ni =>
    if ni + 1 < name_len then
      if p (ns + ni) + 256 * p (ns + ni + 1) = 0 then []
      else if 0x20 ≤ p (ns + ni) + 256 * p (ns + ni + 1) ∧
          p (ns + ni) + 256 * p (ns + ni + 1) < 0x7F then
        (p (ns + ni) + 256 * p (ns + ni + 1)) ::
          objNameChars p ns name_len fuel (ni + 2)
      else if 0x80 ≤ p (ns + ni) + 256 * p (ns + ni + 1) then
        63 :: objNameChars p ns name_len fuel (ni + 2)
      else []
    else []

/-- The name-extraction character loop of `scan_system_columns`
(`catalog_reader.cpp:309-315`): stop at NUL, keep printable ASCII, skip
everything else (no break on control characters). -/
def colNameChars (p : Nat → Nat) (ns name_len : Nat) :
    Nat → Nat → List Nat
  | 0, _ => []
  | fuel + 1, ni =>
    if ni + 1 < name_len then
      if p (ns + ni) + 256 * p (ns + ni + 1) = 0 then []
      else if 0x20 ≤ p (ns + ni) + 256 * p (ns + ni + 1) ∧
          p (ns + ni) + 256 * p (ns + ni + 1) < 0x7F then
        (p (ns + ni) + 256 * p (ns + ni + 1)) ::
          colNameChars p ns name_len fuel (ni + 2)
      else colNameChars p ns name_len fuel (ni + 2)
    else []

/-- One slot of a `sysschobjs` page (`catalog_reader.cpp:120-222`):
all the plausibility gates, ending in the record's `SystemObject`. -/
def parse_schobj_slot (p : Nat → Nat) (slot : Nat) :
    Option SystemObject :=
  let offset := pageU16 p (8192 - 2 * (slot + 1))
  if offset < 96 ∨ 8192 - 10 ≤ offset then none
  else if p offset &&& 0x07 ≠ 0 then none
  else
    let fixed_end := pageU16 p (offset + 2)
    if fixed_end < 20 ∨ 8192 < fixed_end then none
    else if fixed_end < 14 then none
    else
      let obj_id := pageU32 p (offset + 4)
      let schema_id := pageU32 p (offset + 8)
      if ¬ (1 ≤ obj_id ∧ obj_id < 2147483648 ∧ 1 ≤ schema_id ∧
          schema_id < 2147483648 ∧ schema_id ≤ 65536) then none
      else if p offset &&& 0x20 = 0 then none
      else if 8192 - offset ≤ fixed_end + 2 then none
      else
        let col_count := pageU16 p (offset + fixed_end)
        if col_count = 0 ∨ 256 < col_count then none
        else
          let va := fixed_end + 2 + (col_count + 7) / 8
          if 8192 - offset ≤ va + 2 then none
          else
            let var_count := pageU16 p (offset + va)
            if var_count = 0 ∨ 20 < var_count then none
            else
              let offsets_end := va + 2 + var_count * 2
              if 8192 - offset ≤ offsets_end then none
              else
                let fve := pageU16 p (offset + va + 2) &&& 0x7FFF
                let name_len := if offsets_end < fve ∧ fve < 8192 - offset
                  then fve - offsets_end else 0
                if name_len < 2 ∨ 256 < name_len then none
                else
                  let name := objNameChars p (offset + offsets_end)
                    name_len name_len 0
                  if name = [] then none
                  else some ⟨obj_id, schema_id, name,
                    if 18 < fixed_end then p (offset + 17) else 0,
                    if 18 < fixed_end then p (offset + 18) else 0⟩

/-- One slot of a `syscolpars` page (`catalog_reader.cpp:245-326`):
the record is accepted once the ids pass (a failed name extraction only
leaves the name empty). -/
def parse_syscolpar_slot (p : Nat → Nat)
    (objs : Nat → Option SystemObject) (slot : Nat) :
    Option SystemColumn :=
  let offset := pageU16 p (8192 - 2 * (slot + 1))
  if offset < 96 ∨ 8192 - 10 ≤ offset then none
  else if p offset &&& 0x07 ≠ 0 then none
  else
    let fixed_end := pageU16 p (offset + 2)
    if fixed_end < 23 then none
    else
      let obj_id := pageU32 p (offset + 4)
      if (objs obj_id).isNone then none
      else
        let col_id := pageU32 p (offset + 10)
        if col_id = 0 ∨ 4096 < col_id then none
        else
          let name :=
            if p offset &&& 0x20 ≠ 0 ∧ fixed_end + 2 < 8192 - offset then
              let col_count := pageU16 p (offset + fixed_end)
              if 0 < col_count ∧ col_count ≤ 256 then
                let va := fixed_end + 2 + (col_count + 7) / 8
                if va + 2 < 8192 - offset then
                  let vc := pageU16 p (offset + va)
                  if 0 < vc ∧ vc ≤ 20 then
                    let oe := va + 2 + vc * 2
                    if oe < 8192 - offset then
                      let fve := pageU16 p (offset + va + 2) &&& 0x7FFF
                      if oe < fve ∧ fve < 8192 - offset then
                        if 2 ≤ fve - oe ∧ fve - oe ≤ 256 then
                          colNameChars p (offset + oe) (fve - oe)
                            (fve - oe) 0
                        else []
                      else []
                    else []
                  else []
                else []
              else []
            else []
          some ⟨obj_id, col_id, p (offset + 14), pageU16 p (offset + 19),
            p (offset + 21), p (offset + 22), name⟩

/-- The pages `1 ≤ pg < 1000` of file 1 whose header passes
`type == Data`, `slot_count != 0`, `obj_id == sysId`; yields the page
with its slot count. -/
def systemPages (corpus : Nat → Nat → Option (Nat → Nat)) (sysId : Nat) :
    List ((Nat → Nat) × Nat) :=
  (List.range' 1 999).filterMap (fun pg =>
    match corpus 1 pg with
    | none => none
    | some p =>
      if p 1 = 1 ∧ pageU16 p 22 ≠ 0 ∧ pageU32 p 24 = sysId then
        some (p, pageU16 p 22)
      else none)

/-- `scan_system_objects` record pass: the accepted `sysschobjs`
records, in page/slot order (`obj_id = 34`). -/
def scan_obj_records (corpus : Nat → Nat → Option (Nat → Nat)) :
    List SystemObject :=
  (systemPages corpus 34).flatMap (fun pc =>
    (List.range pc.2).filterMap (parse_schobj_slot pc.1))

/-- `scan_system_columns` record pass (`obj_id = 41`), against a given
objects map. -/
def scan_col_records (corpus : Nat → Nat → Option (Nat → Nat))
    (objs : Nat → Option SystemObject) : List SystemColumn :=
  (systemPages corpus 41).flatMap (fun pc =>
    (List.range pc.2).filterMap (fun s => parse_syscolpar_slot pc.1 objs s))

/-- One slot of a `sysrowsets` page (`catalog_reader.cpp:398-425`; no
record-status check): `(rowsetid, idmajor)` when `idminor <= 1` and
`idmajor > 0` (signed). -/
def parse_sysrowset_slot (p : Nat → Nat) (slot : Nat) :
    Option (Nat × Nat) :=
  let offset := pageU16 p (8192 - 2 * (slot + 1))
  if offset < 96 ∨ 8192 - 20 ≤ offset then none
  else
    let fixed_end := pageU16 p (offset + 2)
    if fixed_end < 21 then none
    else
      let idmajor := pageU32 p (offset + 13)
      let idminor := pageU32 p (offset + 17)
      if (idminor ≤ 1 ∨ 2147483648 ≤ idminor) ∧
          (1 ≤ idmajor ∧ idmajor < 2147483648) then
        some (pageU64 p (offset + 4), idmajor)
      else none

/-- One slot of a `sysallocunits` page (`catalog_reader.cpp:441-473`):
`(container_id, (auid >> 16) & 0xFFFF)` for `type == 1` units. -/
def parse_sysallocunit_slot (p : Nat → Nat) (slot : Nat) :
    Option (Nat × Nat) :=
  let offset := pageU16 p (8192 - 2 * (slot + 1))
  if offset < 96 ∨ 8192 - 20 ≤ offset then none
  else
    let fixed_end := pageU16 p (offset + 2)
    if fixed_end < 21 then none
    else if p (offset + 12) ≠ 1 then none
    else some (pageU64 p (offset + 13),
      (pageU64 p (offset + 4) >>> 16) &&& 0xFFFF)

/-- The `sysrowsets`-page check differs from `systemPages` only in the
order of the `slot_count` test, which has the same effect; `obj_id = 5`
pages feed `hobt_to_objid`, and `obj_id = 7` pages are joined through
it (`container_id = rowset_id`) to produce the
`object_id → page_obj_id` assignments of
`scan_rowset_allocunit_mapping`. -/
def mapping_pairs (corpus : Nat → Nat → Option (Nat → Nat)) :
    List (Nat × Nat) :=
  let hobt := updPairs (fun _ => none)
    ((systemPages corpus 5).flatMap (fun pc =>
      (List.range pc.2).filterMap (parse_sysrowset_slot pc.1)))
  ((systemPages corpus 7).flatMap (fun pc =>
    (List.range pc.2).filterMap (parse_sysallocunit_slot pc.1))).filterMap
    (fun au =>
      match hobt au.1 with
      | some object_id => some (object_id, au.2)
      | none => none)

/-- `read_boot_page` (`catalog_reader.cpp:65`): page `(1, 9)` must be
readable and have page type `Boot = 13`. -/
def read_boot_page (corpus : Nat → Nat → Option (Nat → Nat)) : Bool :=
  match corpus 1 9 with
  | none => false
  | some p => p 1 = 13

/-- Insert into a list sorted by `lt`, before the first element the new
one is `lt`-below. -/
def insertBy {A : Type} (lt : A → A → Bool) (a : A) : List A → List A
  | [] => [a]
  | b :: l => if lt a b then a :: b :: l else b :: insertBy lt a l

/-- Insertion sort: models the effect of the `std::sort` call (sorted
by the comparator; `std::sort` is unstable, so the order of elements
comparing equal is unspecified there and immaterial here). -/
def sortBy {A : Type} (lt : A → A → Bool) : List A → List A
  | [] => []
  | a :: l => insertBy lt a (sortBy lt l)

/-- `CatalogReader::scan_catalog` restricted to the three claimed maps:
abort (state unchanged) when the boot page is unreadable; otherwise run
the object scan, the column scan (`columns_[id].push_back` then a sort
by `column_id` per object), and the rowset/alloc-unit mapping. -/
def scan_catalog (corpus : Nat → Nat → Option (Nat → Nat))
    (s : CatalogState) : Bool × CatalogState :=
  if ¬ read_boot_page corpus then (false, s)
  else
    let objects1 := updPairs s.objects
      ((scan_obj_records corpus).map (fun o => (o.object_id, o)))
    let colsPushed := (scan_col_records corpus objects1).foldl
      (fun m c => fun j => if j = c.object_id then m j ++ [c] else m j)
      s.columns
    let columns1 := fun j =>
      sortBy (fun a b => a.column_id < b.column_id) (colsPushed j)
    let objmap1 := updPairs s.obj_to_page_objid (mapping_pairs corpus)
    (true, ⟨objects1, columns1, objmap1⟩)

/-- A page holding one record at offset 96 for the C8 witness:
status byte 0x10 (has null bitmap, no var columns), `fixed_end = 8`,
one 4-byte int column with bytes `99 0 0 0`, record column count 1,
bitmap byte 0x01 (column 0 is null). -/
def c8Page : List Nat :=
  List.replicate 96 0 ++ [16, 0, 8, 0, 99, 0, 0, 0, 1, 0, 1] ++
    List.replicate 8085 0

/-! ## C5 / C9 — backup header parsing
(`src/src/backup_header.cpp:63`, `BackupHeaderParser::parse`, with its
helpers `is_mtf_signature`, `parse_sset_block`,
`parse_sql_backup_header`, `is_plausible_db_name`, `read_utf16_string`;
struct offsets from `src/include/bakread/backup_stream.h`:
`MtfStartOfSet` is 58 bytes, `software_compression_algorithm` at 52,
`data_set_number` at 56)

The stream is the file's byte list; `peek`/`read_bytes` return short
data at end-of-file and never throw (`src/src/backup_stream.cpp`), so
the only `throw` in `parse` is the `file_size < 512` check, modelled by
`Except.error`.  `std::string`s are byte lists.  A `BackupSetInfo`
carries the fields these code paths write (`position`,
`database_name`, `backup_type` with `Full = 1`, `is_compressed`) plus
the two encryption flags, which stay at their `false` defaults here;
fields never touched by `parse` are omitted. -/

structure BackupSetInfo where
  position : Nat
  database_name : List Nat
  backup_type : Nat
  is_compressed : Bool
  is_encrypted : Bool
  is_tde : Bool
deriving DecidableEq, Repr

structure MtfBlockLoc where
  off : Nat
  typ : Nat
deriving DecidableEq, Repr

/-- `is_mtf_signature` (`backup_header.cpp:44`). -/
def is_mtf_signature (dw : Nat) : Bool :=
  dw == 0x45504154 || dw == 0x54455353 || dw == 0x424C4F56 ||
  dw == 0x42524944 || dw == 0x454C4946 || dw == 0x54455345 ||
  dw == 0x424D4653 || dw == 0x4C494643 || dw == 0x42505345 ||
  dw == 0x4943534D || dw == 0x4144534D

/-- Phase-1 loop body over the 512-aligned probe positions: record
signature hits, break on a failed 4-byte peek, and break once the gap
since the last hit exceeds 256 KiB with at least two blocks found. -/
def mtfScanBlocks (file : List Nat) :
    List Nat → Nat → Nat → List MtfBlockLoc
  | [], _gap, _cnt => []
  | pos :: rest, gap, cnt =>
    if pos + 4 > file.length then []
    else if is_mtf_signature (readU32 file pos) then
      ⟨pos, readU32 file pos⟩ :: mtfScanBlocks file rest 0 (cnt + 1)
    else if gap + 512 > 262144 ∧ cnt ≥ 2 then []
    else mtfScanBlocks file rest (gap + 512) cnt

/-- Phase 1: the discovered MTF block locations.  The probe positions
are `0, 512, 1024, …` below `scan_end = min(file_size, 64 MiB)`. -/
def mtf_block_scan (file : List Nat) : List MtfBlockLoc :=
  mtfScanBlocks file
    (List.range' 0 ((min file.length 67108864 + 511) / 512) 512) 0 0

/-- Three consecutive ASCII-range UTF-16LE code units at `off`
(the probe loop `for k < 3`). -/
def probe3 (data : List Nat) (off : Nat) : Bool :=
  (byteAt data (off + 1) == 0 && 0x20 ≤ byteAt data off &&
    byteAt data off < 0x7F) &&
  (byteAt data (off + 3) == 0 && 0x20 ≤ byteAt data (off + 2) &&
    byteAt data (off + 2) < 0x7F) &&
  (byteAt data (off + 5) == 0 && 0x20 ≤ byteAt data (off + 4) &&
    byteAt data (off + 4) < 0x7F)

/-- The `while (str_end + 1 < size && str_end - off < bound)` search for
the 0x0000 terminator, stepping two bytes.  `fuel = bound` covers the at
most `bound/2 + 1` iterations the bound allows. -/
def strEndSearch (data : List Nat) (off bound : Nat) :
    Nat → Nat → Nat
  | 0, cur => cur
  | fuel + 1, cur =>
    if cur + 1 < data.length ∧ cur - off < bound then
      if byteAt data cur = 0 ∧ byteAt data (cur + 1) = 0 then cur
      else strEndSearch data off bound fuel (cur + 2)
    else cur

/-- `is_plausible_db_name`'s character walk: `none` when a control
character (< 0x20) is hit, else the pair (code units before the first
NUL, how many of them are ASCII-printable). -/
def plausible_counts : List Nat → Option (Nat × Nat)
  | b0 :: b1 :: rest =>
    if b0 + 256 * b1 = 0 then some (0, 0)
    else if b0 + 256 * b1 < 0x20 then none
    else
      match plausible_counts rest with
      | none => none
      | some (c, a) =>
        some (c + 1,
          if 0x20 ≤ b0 + 256 * b1 ∧ b0 + 256 * b1 < 0x7F then a + 1 else a)
  | _ => some (0, 0)

/-- `is_plausible_db_name` (`backup_header.cpp:221`). -/
def is_plausible_db_name (d : List Nat) : Bool :=
  match plausible_counts d with
  | none => false
  | some (c, a) => 2 ≤ c && c ≤ 128 && a * 4 ≥ c * 3

/-- `read_utf16_string` (`backup_header.cpp:424`): UTF-16LE to UTF-8
without surrogate pairing, stopping at the first NUL. -/
def read_utf16_string : List Nat → List Nat
  | b0 :: b1 :: rest =>
    let ch := b0 + 256 * b1
    if ch = 0 then []
    else if ch < 0x80 then ch :: read_utf16_string rest
    else if ch < 0x800 then
      (0xC0 ||| (ch >>> 6)) :: (0x80 ||| (ch &&& 0x3F)) ::
        read_utf16_string rest
    else
      (0xE0 ||| (ch >>> 12)) :: (0x80 ||| ((ch >>> 6) &&& 0x3F)) ::
        (0x80 ||| (ch &&& 0x3F)) :: read_utf16_string rest
  | _ => []

/-- `std::string::find`: first position where `needle` occurs in `hay`,
`none` for `npos`. -/
def findSub (needle : List Nat) : List Nat → Nat → Option Nat
  | [], i => if needle = [] then some i else none
  | h :: t, i =>
    if needle.isPrefixOf (h :: t) then some i
    else findSub needle t (i + 1)

/-- One `BACKUP_DESC_SUFFIXES` attempt: accept only a match at a
positive position and take the prefix before it. -/
def trySuffix (candidate suffix : List Nat) : Option (List Nat) :=
  match findSub suffix candidate 0 with
  | some pos => if pos > 0 then some (candidate.take pos) else none
  | none => none

def backupDescSuffixes : List (List Nat) :=
  [("-Full Database Backup".toList.map Char.toNat),
   ("-Differential Database Backup".toList.map Char.toNat),
   ("-Transaction Log Backup".toList.map Char.toNat)]

/-- The `BACKUP_DESC_SUFFIXES` loop of `parse_sset_block`. -/
def suffixName (candidate : List Nat) : Option (List Nat) :=
  match trySuffix candidate (backupDescSuffixes.getD 0 []) with
  | some nm => some nm
  | none =>
    match trySuffix candidate (backupDescSuffixes.getD 1 []) with
    | some nm => some nm
    | none => trySuffix candidate (backupDescSuffixes.getD 2 [])

/-- The offsets `off = lo, lo+2, …` with `off + 6 < size`, probed by
the SSET string scan. -/
def probeOffsets (lo size : Nat) : List Nat :=
  if lo + 6 < size then List.range' lo ((size - 7 - lo) / 2 + 1) 2 else []

/-- The `for (off = sizeof(sset); off + 6 < data.size(); off += 2)`
string scan of `parse_sset_block`: returns the extracted database name,
`[]` when none was accepted. -/
def sset_scan_name (data : List Nat) : List Nat → List Nat
  | [] => []
  | off :: rest =>
    if ¬ probe3 data off then sset_scan_name data rest
    else
      let str_len := strEndSearch data off 1024 1024 off - off
      if str_len < 4 then sset_scan_name data rest
      else if ¬ is_plausible_db_name ((data.drop off).take str_len) then
        sset_scan_name data rest
      else
        let candidate := read_utf16_string ((data.drop off).take str_len)
        if candidate = [] then sset_scan_name data rest
        else
          match suffixName candidate with
          | some nm => nm
          | none =>
            if candidate.length ≤ 128 then candidate
            else sset_scan_name data rest

/-- `parse_sset_block` (`backup_header.cpp:252`): read the SSET fields,
scan for a database name, then either push a new set (first set, or a
new `data_set_number`) or fill in the missing name of the last set. -/
def parse_sset_block (data : List Nat) (sets : List BackupSetInfo) :
    List BackupSetInfo :=
  if data.length < 64 then sets
  else
    let bsi : BackupSetInfo :=
      ⟨readU16 data 56, sset_scan_name data (probeOffsets 58 data.length),
        1, readU16 data 52 ≠ 0, false, false⟩
    match sets.getLast? with
    | none => [bsi]
    | some last =>
      if last.position ≠ bsi.position then sets ++ [bsi]
      else if bsi.database_name ≠ [] ∧ last.database_name = [] then
        sets.dropLast ++ [{ last with database_name := bsi.database_name }]
      else sets

/-- The offsets `off = 0, 2, …` with `off + 128 ≤ size`, probed by
`parse_sql_backup_header`. -/
def headerProbeOffsets (size : Nat) : List Nat :=
  if 128 ≤ size then List.range' 0 ((size - 128) / 2 + 1) 2 else []

/-- The probe loop of `parse_sql_backup_header`: on an accepted
candidate either fill in the last set's missing name or push a new set
and return `true`; keep scanning when the last set already has a name. -/
def sql_backup_header_scan (data : List Nat) (sets : List BackupSetInfo) :
    List Nat → List BackupSetInfo × Bool
  | [] => (sets, false)
  | off :: rest =>
    if off + 6 > data.length then sql_backup_header_scan data sets rest
    else if ¬ probe3 data off then sql_backup_header_scan data sets rest
    else
      let str_len := strEndSearch data off 512 512 off - off
      if str_len < 4 ∨ str_len > 256 then sql_backup_header_scan data sets rest
      else if ¬ is_plausible_db_name ((data.drop off).take str_len) then
        sql_backup_header_scan data sets rest
      else
        let candidate := read_utf16_string ((data.drop off).take str_len)
        if candidate = [] then sql_backup_header_scan data sets rest
        else
          if (32 ≤ off ∧ 80 ≤ readU32 data (off - 32) ∧
              readU32 data (off - 32) ≤ 200) ∨ off < 2048 then
            match sets.getLast? with
            | some last =>
              if last.database_name = [] then
                (sets.dropLast ++ [{ last with database_name := candidate }],
                  true)
              else sql_backup_header_scan data sets rest
            | none => (sets ++ [⟨1, candidate, 1, false, false, false⟩], true)
          else sql_backup_header_scan data sets rest

/-- `parse_sql_backup_header` (`backup_header.cpp:347`). -/
def parse_sql_backup_header (data : List Nat)
    (sets : List BackupSetInfo) : List BackupSetInfo × Bool :=
  if data.length < 256 then (sets, false)
  else sql_backup_header_scan data sets (headerProbeOffsets data.length)

/-- Phase 2 of `parse`: process each discovered block.  `TAPE` blocks
only move the stream (no parser state); `SSET` feeds
`parse_sset_block`; `DIRB`/`FILE` feed `parse_sql_backup_header` until
one succeeds (`parse_sql_file_list` is a no-op returning false); other
types are skipped. -/
def processBlocks (file : List Nat) (scan_end : Nat) :
    List MtfBlockLoc → List BackupSetInfo → Bool →
    List BackupSetInfo × Bool
  | [], sets, found => (sets, found)
  | b :: rest, sets, found =>
    let blk_end :=
      match rest with
      | next :: _ => next.off
      | [] => min (b.off + 65536) scan_end
    let data := (file.drop b.off).take (blk_end - b.off)
    if b.typ = 0x54455353 then
      processBlocks file scan_end rest (parse_sset_block data sets) found
    else if b.typ = 0x42524944 ∨ b.typ = 0x454C4946 then
      if ¬ found then
        processBlocks file scan_end rest
          (parse_sql_backup_header data sets).1
          (parse_sql_backup_header data sets).2
      else processBlocks file scan_end rest sets found
    else processBlocks file scan_end rest sets found

/-- The backup sets produced by phases 1–2 (structured parsing). -/
def structuredSets (file : List Nat) : List BackupSetInfo :=
  (processBlocks file (min file.length 67108864) (mtf_block_scan file)
    [] false).1

/-- The set synthesized by phase 3 when structured parsing found
nothing: position 1, `BackupType::Full`, all other fields at their
defaults (encryption and TDE flags false). -/
def defaultBackupSet : BackupSetInfo := ⟨1, [], 1, false, false, false⟩

/-- What `parse` surfaces: the final backup-set list, the data-start
offset, and the discovered block list. -/
structure ParseResult where
  backup_sets : List BackupSetInfo
  data_start_offset : Nat
  blocks : List MtfBlockLoc
deriving DecidableEq, Repr

/-- `BackupHeaderParser::parse` (`backup_header.cpp:63`): throw
(`Except.error`) only when the file is under 512 bytes; otherwise run
the block scan and block processing, synthesize a default backup set if
none was parsed, set `data_start_offset` to the last block's offset (0
when no blocks), and return `true`. -/
def parse (file : List Nat) : Except Unit (Bool × ParseResult) :=
  if file.length < 512 then .error ()
  else
    let blocks := mtf_block_scan file
    let sets1 := structuredSets file
    let sets2 := if sets1 = [] then [defaultBackupSet] else sets1
    let dso := match blocks.getLast? with
      | some b => b.off
      | none => 0
    .ok (true, ⟨sets2, dso, blocks⟩)

/-- A chunk that is a single window with `header_version = 1`,
`type = 1` (Data), `slot_count = 0`, `free_count = 0`, `this_page = 5`,
`this_file = 1`. -/
def c1GoodChunk : List Nat :=
  [1, 1, 0, 0, 0, 0, 0, 0, 0, 0, 0, 0, 0, 0, 0, 0, 0, 0, 0, 0, 0, 0, 0,
    0, 0, 0, 0, 0, 0, 0, 0, 0, 5, 0, 0, 0, 1, 0] ++ List.replicate 8154 0

/-- A chunk that is a single window with `header_version = 0`,
`type = 0`, `this_file = 0`, but `this_page = 5`: the indexed-mode scan
inserts it although it fails the candidate-header test. -/
def c1BadChunk : List Nat :=
  [0, 0, 0, 0, 0, 0, 0, 0, 0, 0, 0, 0, 0, 0, 0, 0, 0, 0, 0, 0, 0, 0, 0,
    0, 0, 0, 0, 0, 0, 0, 0, 0, 5, 0, 0, 0] ++ List.replicate 8156 0
/-- The boot page of the C4 corpus: page type 13 (`Boot`) at byte 1. -/
def c4BootPage : Nat → Nat := fun i => if i = 1 then 13 else 0

/-- A `sysschobjs` page for C4: one slot at offset 96 holding a record
that passes every gate of `parse_schobj_slot` (`object_id = 1000`,
`schema_id = 1`, name `"TB"`, type `"U "`). -/
def c4SchobjPage : Nat → Nat := fun i =>
  if i = 1 then 1
  else if i = 22 then 1
  else if i = 24 then 34
  else if i = 8190 then 96
  else if i = 96 then 32
  else if i = 98 then 20
  else if i = 100 then 232
  else if i = 101 then 3
  else if i = 104 then 1
  else if i = 113 then 85
  else if i = 114 then 32
  else if i = 116 then 1
  else if i = 119 then 1
  else if i = 121 then 31
  else if i = 123 then 84
  else if i = 125 then 66
  else 0

/-- A `syscolpars` page for C4: one slot at offset 96 holding a column
record for object 1000 (`column_id = 1`, `system_type_id = 56`,
`max_length = 4`, no variable region so the name stays empty). -/
def c4ColparPage : Nat → Nat := fun i =>
  if i = 1 then 1
  else if i = 22 then 1
  else if i = 24 then 41
  else if i = 8190 then 96
  else if i = 98 then 23
  else if i = 100 then 232
  else if i = 101 then 3
  else if i = 106 then 1
  else if i = 110 then 56
  else if i = 115 then 4
  else 0

/-- The C4 page corpus: boot page at `(1, 9)`, one `sysschobjs` page at
`(1, 5)`, one `syscolpars` page at `(1, 6)`. -/
def c4Corpus : Nat → Nat → Option (Nat → Nat) := fun f pg =>
  if f = 1 then
    if pg = 9 then some c4BootPage
    else if pg = 5 then some c4SchobjPage
    else if pg = 6 then some c4ColparPage
    else none
  else none

end BakRead

/-! Supporting lemmas about the definitions above. -/

theorem BakRead.unitsBeforeNul_cons_ne (u : Nat) (us : List Nat) (h : u ≠ 0) :
    unitsBeforeNul (u :: us) = u :: unitsBeforeNul us := by
  simp [unitsBeforeNul, List.takeWhile, h]

theorem BakRead.unitsBeforeNul_cons_zero (us : List Nat) :
    unitsBeforeNul (0 :: us) = [] := by
  simp [unitsBeforeNul, List.takeWhile]

theorem BakRead.lzExtLen_si_ge (src : List Nat) (si1 d si2 len : Nat)
    (h : lzExtLen src si1 d = some (si2, len)) : si1 ≤ si2 := by
  unfold lzExtLen at h
  split_ifs at h <;> simp_all <;> omega

theorem BakRead.lzInner_cont_si_ge (src : List Nat) (cap : Nat) :
    ∀ (n flags si : Nat) (out : List Nat) (s : Nat) (o : List Nat)
      (e : List LzEvent), lzInner src cap n flags si out = .cont s o e →
      si ≤ s := by
  intro n
  induction n with
  | zero =>
      intro flags si out s o e h
      simp only [lzInner] at h
      cases h; omega
  | succ n ih =>
      intro flags si out s o e h
      simp only [lzInner] at h
      split at h
      · split at h
        · exact le_trans (by omega) (ih _ _ _ _ _ _ h)
        · split at h
          · cases h
          · split at h
            · cases h
            · rename_i si2 len heq
              split at h
              · cases h
              · rcases hstep : lzInner src cap n (flags >>> 1) si2
                    (copyMatch out ((readU16 src si >>> 3) + 1) len cap)
                  with _ | ⟨s', o', e'⟩
                · rw [hstep] at h; simp only [lzPush] at h; cases h
                · rw [hstep] at h; simp only [lzPush] at h
                  cases h
                  have h1 := lzExtLen_si_ge src (si + 2) _ _ _ heq
                  have h2 := ih _ _ _ _ _ _ hstep
                  omega
      · cases h; omega

theorem BakRead.lzOuter_fuel_stable (src : List Nat) (cap : Nat) :
    ∀ (fuel si : Nat) (out : List Nat), src.length ≤ si + 4 * fuel →
      lzOuter src cap (fuel + 1) si out = lzOuter src cap fuel si out := by
  intro fuel
  induction fuel with
  | zero =>
      intro si out hle
      simp only [lzOuter]
      rw [if_neg]
      omega
  | succ fuel ih =>
      intro si out hle
      conv =>
        lhs
        rw [lzOuter]
      conv =>
        rhs
        rw [lzOuter]
      split
      · split
        · rfl
        · rcases hstep : lzInner src cap 32 (readU32 src si) (si + 4) out
            with _ | ⟨si', o, evs⟩
          · rfl
          · have hsi := lzInner_cont_si_ge src cap 32 (readU32 src si)
              (si + 4) out _ _ _ hstep
            simp only [ih si' o (by omega)]
      · rfl

theorem BakRead.getD_mono_of_isPref {l1 l2 : List Nat} (h : l1 <+: l2) {i : Nat}
    (hi : i < l1.length) : l2.getD i 0 = l1.getD i 0 := by
  obtain ⟨t, rfl⟩ := h
  exact List.getD_append l1 t 0 i hi

theorem BakRead.eventRealized_mono {l1 l2 : List Nat} (h : l1 <+: l2)
    {e : LzEvent} (he : eventRealized l1 e) : eventRealized l2 e := by
  intro hoff
  obtain ⟨hlen, heq⟩ := he hoff
  refine ⟨le_trans hlen h.length_le, fun k hk => ?_⟩
  rw [getD_mono_of_isPref h (by omega), getD_mono_of_isPref h (by omega)]
  exact heq k hk

theorem BakRead.lzPush_outList (e : LzEvent) (s : LzStep) :
    (lzPush e s).outList = s.outList := by
  cases s <;> rfl

theorem BakRead.lzPush_evsList (e : LzEvent) (s : LzStep) :
    (lzPush e s).evsList = e :: s.evsList := by
  cases s <;> rfl

theorem BakRead.copyMatch_prefix (out : List Nat) (off len cap : Nat) :
    out <+: copyMatch out off len cap := by
  induction len generalizing out with
  | zero => exact List.prefix_refl _
  | succ l ih =>
      simp only [copyMatch]
      split
      · exact (List.prefix_append _ _).trans (ih _)
      · exact List.prefix_refl _

/-- The copied region of `copyMatch` satisfies `out[i] = out[i - off]`:
if the bytes from `q` on already satisfy it, so do the bytes from `q` on
of the extended buffer. -/
theorem BakRead.copyMatch_spec (off cap : Nat) (hoff : 0 < off) :
    ∀ (len : Nat) (out : List Nat) (q : Nat), off ≤ q → q ≤ out.length →
      (∀ i, q ≤ i → i < out.length →
        out.getD i 0 = out.getD (i - off) 0) →
      ∀ i, q ≤ i → i < (copyMatch out off len cap).length →
        (copyMatch out off len cap).getD i 0 =
          (copyMatch out off len cap).getD (i - off) 0 := by
  intro len
  induction len with
  | zero =>
      intro out q hq hql hreg i hi hilen
      exact hreg i hi hilen
  | succ l ih =>
      intro out q hq hql hreg i hi hilen
      by_cases hcap : out.length < cap
      · simp only [copyMatch, if_pos hcap] at hilen ⊢
        refine ih (out ++ [out.getD (out.length - off) 0]) q hq
          (by simp; omega) ?_ i hi hilen
        intro j hj hjlen
        simp only [List.length_append, List.length_cons,
          List.length_nil] at hjlen
        rcases Nat.lt_or_ge j out.length with hlt | hge
        · rw [List.getD_append _ _ _ _ hlt, List.getD_append _ _ _ _ (by omega)]
          exact hreg j hj hlt
        · have hj' : j = out.length := by omega
          subst hj'
          have h1 : (out ++ [out.getD (out.length - off) 0]).getD
              out.length 0 = out.getD (out.length - off) 0 := by
            rw [List.getD_append_right _ _ _ _ le_rfl]
            simp
          rw [h1, List.getD_append _ _ _ _ (by omega)]
      · simp only [copyMatch, if_neg hcap] at hilen ⊢
        exact hreg i hi hilen

/-- Joint invariant of the inner loop: output grows by appends only,
every traced match event is realized in the final output, and a refused
match forces return value 0. -/
theorem BakRead.lzInner_invariant (src : List Nat) (cap : Nat) :
    ∀ (n flags si : Nat) (out : List Nat),
      out <+: (lzInner src cap n flags si out).outList ∧
      (∀ e ∈ (lzInner src cap n flags si out).evsList,
        eventRealized (lzInner src cap n flags si out).outList e) ∧
      (lzInner src cap n flags si out).refuseOk := by
  intro n
  induction n with
  | zero =>
      intro flags si out
      refine ⟨List.prefix_refl _, ?_, ?_⟩
      · intro e he; simp [lzInner, LzStep.evsList] at he
      · intro e he; simp [lzInner, LzStep.evsList] at he
  | succ n ih =>
      intro flags si out
      by_cases hcond : si < src.length ∧ out.length < cap
      · by_cases hlit : flags &&& 1 = 0
        · -- literal byte
          have hres : lzInner src cap (n + 1) flags si out =
              lzInner src cap n (flags >>> 1) (si + 1)
                (out ++ [byteAt src si]) := by
            simp only [lzInner, if_pos hcond, if_pos hlit]
          rw [hres]
          obtain ⟨hpre, hevs, hbad⟩ := ih (flags >>> 1) (si + 1)
            (out ++ [byteAt src si])
          exact ⟨(List.prefix_append _ _).trans hpre, hevs, hbad⟩
        · by_cases htrunc : si + 2 > src.length
          · have hres : lzInner src cap (n + 1) flags si out =
                .halt out.length out [] := by
              simp only [lzInner, if_pos hcond, if_neg hlit, if_pos htrunc]
            rw [hres]
            refine ⟨List.prefix_refl _, ?_, ?_⟩
            · intro e he; simp [LzStep.evsList] at he
            · intro ⟨e, he, _⟩; simp at he
          · rcases hext : lzExtLen src (si + 2) (readU16 src si)
              with _ | ⟨si2, len⟩
            · have hres : lzInner src cap (n + 1) flags si out =
                  .halt out.length out [] := by
                simp only [lzInner, if_pos hcond, if_neg hlit, if_neg htrunc,
                  hext]
              rw [hres]
              refine ⟨List.prefix_refl _, ?_, ?_⟩
              · intro e he; simp [LzStep.evsList] at he
              · intro ⟨e, he, _⟩; simp at he
            · by_cases hrefuse : (readU16 src si >>> 3) + 1 > out.length
              · have hres : lzInner src cap (n + 1) flags si out =
                    .halt 0 out
                      [⟨out.length, (readU16 src si >>> 3) + 1, len⟩] := by
                  simp only [lzInner, if_pos hcond, if_neg hlit,
                    if_neg htrunc, hext, if_pos hrefuse]
                rw [hres]
                refine ⟨List.prefix_refl _, ?_, fun _ => rfl⟩
                intro e he
                simp only [LzStep.evsList, List.mem_singleton] at he
                subst he
                intro hoff
                exact absurd hoff (by simp; omega)
              · have hres : lzInner src cap (n + 1) flags si out =
                    lzPush ⟨out.length, (readU16 src si >>> 3) + 1,
                        (copyMatch out ((readU16 src si >>> 3) + 1) len
                          cap).length - out.length⟩
                      (lzInner src cap n (flags >>> 1) si2
                        (copyMatch out ((readU16 src si >>> 3) + 1) len
                          cap)) := by
                  simp only [lzInner, if_pos hcond, if_neg hlit,
                    if_neg htrunc, hext, if_neg hrefuse]
                rw [hres]
                obtain ⟨hpre, hevs, hbad⟩ := ih (flags >>> 1) si2
                  (copyMatch out ((readU16 src si >>> 3) + 1) len cap)
                have hcopypre := copyMatch_prefix out
                  ((readU16 src si >>> 3) + 1) len cap
                refine ⟨?_, ?_, ?_⟩
                · rw [lzPush_outList]
                  exact hcopypre.trans hpre
                · rw [lzPush_outList, lzPush_evsList]
                  intro e he
                  rcases List.mem_cons.mp he with he0 | hrest
                  · subst he0
                    intro hoff
                    have hofflen : out.length ≤
                        (copyMatch out ((readU16 src si >>> 3) + 1) len
                          cap).length := hcopypre.length_le
                    constructor
                    · simp only
                      have := hpre.length_le
                      omega
                    · intro k hk
                      simp only at hk hoff ⊢
                      have hreg := copyMatch_spec
                        ((readU16 src si >>> 3) + 1) cap (by omega) len out
                        out.length (by omega) le_rfl
                        (by intro i h1 h2; omega)
                        (out.length + k) (by omega) (by omega)
                      rw [getD_mono_of_isPref hpre (by omega),
                        getD_mono_of_isPref hpre (by omega)]
                      exact hreg
                  · exact hevs e hrest
                · cases hrec : lzInner src cap n (flags >>> 1) si2
                    (copyMatch out ((readU16 src si >>> 3) + 1) len cap)
                    with
                  | halt r o evs =>
                      rw [hrec] at hbad
                      simp only [lzPush, LzStep.refuseOk] at hbad ⊢
                      intro ⟨e, he, hbade⟩
                      rcases List.mem_cons.mp he with he0 | hrest
                      · subst he0; simp at hbade; omega
                      · exact hbad ⟨e, hrest, hbade⟩
                  | cont s o evs =>
                      rw [hrec] at hbad
                      simp only [lzPush, LzStep.refuseOk] at hbad ⊢
                      intro e he
                      rcases List.mem_cons.mp he with he0 | hrest
                      · subst he0; simp; omega
                      · exact hbad e hrest
      · have hres : lzInner src cap (n + 1) flags si out =
            .cont si out [] := by
          simp only [lzInner, if_neg hcond]
        rw [hres]
        refine ⟨List.prefix_refl _, ?_, ?_⟩
        · intro e he; simp [LzStep.evsList] at he
        · intro e he; simp [LzStep.evsList] at he

/-- Joint invariant of the outer loop, for any fuel. -/
theorem BakRead.lzOuter_invariant (src : List Nat) (cap : Nat) :
    ∀ (fuel si : Nat) (out : List Nat),
      out <+: (lzOuter src cap fuel si out).2.1 ∧
      (∀ e ∈ (lzOuter src cap fuel si out).2.2,
        eventRealized (lzOuter src cap fuel si out).2.1 e) ∧
      ((∃ e ∈ (lzOuter src cap fuel si out).2.2, e.pos < e.off) →
        (lzOuter src cap fuel si out).1 = 0) := by
  intro fuel
  induction fuel with
  | zero =>
      intro si out
      refine ⟨List.prefix_refl _, ?_, ?_⟩
      · intro e he; simp [lzOuter] at he
      · intro ⟨e, he, _⟩; simp [lzOuter] at he
  | succ fuel ih =>
      intro si out
      by_cases hcond : si < src.length ∧ out.length < cap
      · by_cases hshort : si + 4 > src.length
        · have hres : lzOuter src cap (fuel + 1) si out =
              (out.length, out, []) := by
            simp only [lzOuter, if_pos hcond, if_pos hshort]
          rw [hres]
          refine ⟨List.prefix_refl _, ?_, ?_⟩
          · intro e he; simp at he
          · intro ⟨e, he, _⟩; simp at he
        · obtain ⟨hpre, hevs, hbad⟩ := lzInner_invariant src cap 32
            (readU32 src si) (si + 4) out
          cases hrec : lzInner src cap 32 (readU32 src si) (si + 4) out with
          | halt r o evs =>
              have hres : lzOuter src cap (fuel + 1) si out = (r, o, evs) := by
                simp only [lzOuter, if_pos hcond, if_neg hshort, hrec]
              rw [hres]
              rw [hrec] at hpre hevs hbad
              exact ⟨hpre, hevs, hbad⟩
          | cont si' o evs =>
              have hres : lzOuter src cap (fuel + 1) si out =
                  ((lzOuter src cap fuel si' o).1,
                    (lzOuter src cap fuel si' o).2.1,
                    evs ++ (lzOuter src cap fuel si' o).2.2) := by
                simp only [lzOuter, if_pos hcond, if_neg hshort, hrec]
              rw [hres]
              rw [hrec] at hpre hevs hbad
              obtain ⟨hpre2, hevs2, hbad2⟩ := ih si' o
              refine ⟨hpre.trans hpre2, ?_, ?_⟩
              · intro e he
                rcases List.mem_append.mp he with h1 | h2
                · exact eventRealized_mono hpre2 (hevs e h1)
                · exact hevs2 e h2
              · intro ⟨e, he, hbade⟩
                rcases List.mem_append.mp he with h1 | h2
                · exact absurd hbade (by have := hbad e h1; omega)
                · exact hbad2 ⟨e, h2, hbade⟩
      · have hres : lzOuter src cap (fuel + 1) si out =
            (out.length, out, []) := by
          simp only [lzOuter, if_neg hcond]
        rw [hres]
        refine ⟨List.prefix_refl _, ?_, ?_⟩
        · intro e he; simp at he
        · intro ⟨e, he, _⟩; simp at he

theorem BakRead.parseIndexRecords_flatMap :
    ∀ l : List (Nat × PageIndexEntry),
      (∀ p ∈ l, p.1 < 18446744073709551616 ∧ entryWF p.2) →
      parseIndexRecords l.length
          (l.flatMap (fun p => leBytes 8 p.1 ++ entryBytes p.2)) = some l := by
  intro l
  induction l with
  | nil => intro _; rfl
  | cons p t ih =>
      intro hwf
      obtain ⟨hk, hs, hpt, hoid, hoff⟩ := hwf p (List.mem_cons_self p t)
      have hrec := ih (fun q hq => hwf q (List.mem_cons_of_mem _ hq))
      rcases p with ⟨k, s, ty, oid, off⟩
      simp only at hk hs hpt hoid hoff
      simp only [List.flatMap_cons, List.length_cons, List.append_assoc]
      have hlen8 : (leBytes 8 k).length = 8 := by simp [leBytes]
      have hlen16 : (entryBytes ⟨s, ty, oid, off⟩).length = 16 := by
        simp [leBytes, entryBytes]
      rw [parseIndexRecords]
      rw [if_neg (by simp [List.length_append, hlen8, hlen16]; omega)]
      have hdrop : (leBytes 8 k ++ (entryBytes ⟨s, ty, oid, off⟩ ++
          t.flatMap (fun p => leBytes 8 p.1 ++ entryBytes p.2))).drop 24 =
          t.flatMap (fun p => leBytes 8 p.1 ++ entryBytes p.2) := by
        rw [← List.append_assoc]
        have h24 : (24 : Nat) =
            (leBytes 8 k ++ entryBytes ⟨s, ty, oid, off⟩).length := by
          simp [List.length_append, hlen8, hlen16]
        rw [h24, List.drop_left]
      rw [hdrop, hrec]
      simp only [Option.some.injEq, List.cons.injEq, and_true,
        Prod.mk.injEq, PageIndexEntry.mk.injEq]
      refine ⟨?_, ?_, ?_, ?_, ?_⟩ <;>
        · simp [leBytes, entryBytes, readU64, readU32, byteAt]
          omega

theorem BakRead.load_of_save (l : List (Nat × PageIndexEntry)) :
    load_from_file (save_to_file l) =
      parseIndexRecords (l.length % 4294967296)
        (l.flatMap (fun p => leBytes 8 p.1 ++ entryBytes p.2)) := by
  unfold load_from_file save_to_file indexHeaderBytes magicBytes
  rw [if_neg (by simp [List.length_append, leBytes, List.replicate])]
  rw [if_neg (by simp [leBytes, List.replicate, List.take, magicBytes])]
  rw [if_neg (by simp [leBytes, List.replicate, readU32, byteAt])]
  have hcount : readU32 (([66, 65, 75, 82, 73, 68, 88, 0] ++ leBytes 4 1 ++
      leBytes 4 l.length ++ leBytes 8 l.length ++
      leBytes 8 (l.countP (fun p => p.2.page_type = 1)) ++
      leBytes 8 (l.countP (fun p => p.2.page_type = 5)) ++
      List.replicate 24 0) ++
      l.flatMap (fun p => leBytes 8 p.1 ++ entryBytes p.2)) 12 =
      l.length % 4294967296 := by
    simp [leBytes, List.replicate, readU32, byteAt]
    omega
  rw [hcount]
  congr 1

theorem BakRead.byteAt_append_left {l r : List Nat} {i : Nat} (h : i < l.length) :
    byteAt (l ++ r) i = byteAt l i :=
  List.getD_append l r 0 i h

theorem BakRead.byteAt_append_right {l r : List Nat} {i : Nat} (h : l.length ≤ i) :
    byteAt (l ++ r) i = byteAt r (i - l.length) :=
  List.getD_append_right l r 0 i h

theorem BakRead.byteAt_replicate_zero (n i : Nat) :
    byteAt (List.replicate n 0) i = 0 := by
  unfold byteAt
  induction n generalizing i with
  | zero => simp
  | succ n ih =>
      cases i with
      | zero => simp [List.replicate]
      | succ i => simp only [List.replicate]; exact ih i

/-- Zero padding never changes a byte read: in range it is untouched,
out of range both sides read the default 0. -/
theorem BakRead.byteAt_append_replicate_zero (front : List Nat) (m i : Nat) :
    byteAt (front ++ List.replicate m 0) i = byteAt front i := by
  rcases Nat.lt_or_ge i front.length with h | h
  · exact byteAt_append_left h
  · rw [byteAt_append_right h, byteAt_replicate_zero]
    unfold byteAt
    rw [List.getD_eq_default _ _ h]

/-! Claim theorems start here (one per claim, in claim order where they are
settled; supporting lemmas precede them). -/

/-- C10: the UTF-16LE → UTF-8 conversion encodes exactly the UTF-16 code
units preceding the first 0x0000 unit (a trailing odd byte is ignored):
the byte-walking loop of `RowDecoder::utf16le_to_utf8` equals
"split into units, cut at the first NUL, encode". Everything after an
embedded NUL is dropped. -/
theorem C10_utf16_truncates_at_first_nul (data : List Nat) :
    BakRead.utf16le_to_utf8 data =
      BakRead.encodeUnits (BakRead.unitsBeforeNul (BakRead.utf16Units data)) := by
  induction data using BakRead.utf16le_to_utf8.induct with
  | case1 b0 b1 b2 b3 rest2 ch hz =>
      have hz' : b0 + 256 * b1 = 0 := hz
      simp only [BakRead.utf16Units]
      rw [hz', BakRead.unitsBeforeNul_cons_zero]
      simp only [BakRead.utf16le_to_utf8, BakRead.encodeUnits]
      rw [if_pos hz']
  | case2 b0 b1 b2 b3 rest2 ch hz hlt ih =>
      have hz' : ¬ b0 + 256 * b1 = 0 := hz
      have hlt' : b0 + 256 * b1 < 128 := hlt
      simp only [BakRead.utf16Units] at ih ⊢
      rw [BakRead.unitsBeforeNul_cons_ne _ _ hz']
      simp only [BakRead.utf16le_to_utf8]
      rw [if_neg hz', if_pos hlt', ih]
      by_cases hlow : b2 + 256 * b3 = 0
      · rw [hlow, BakRead.unitsBeforeNul_cons_zero]
        simp only [BakRead.encodeUnits]
        rw [if_pos hlt']
      · rw [BakRead.unitsBeforeNul_cons_ne _ _ hlow]
        simp only [BakRead.encodeUnits]
        rw [if_pos hlt']
  | case3 b0 b1 b2 b3 rest2 ch hz h80 h800 ih =>
      have hz' : ¬ b0 + 256 * b1 = 0 := hz
      have h80' : ¬ b0 + 256 * b1 < 128 := h80
      have h800' : b0 + 256 * b1 < 2048 := h800
      simp only [BakRead.utf16Units] at ih ⊢
      rw [BakRead.unitsBeforeNul_cons_ne _ _ hz']
      simp only [BakRead.utf16le_to_utf8]
      rw [if_neg hz', if_neg h80', if_pos h800', ih]
      by_cases hlow : b2 + 256 * b3 = 0
      · rw [hlow, BakRead.unitsBeforeNul_cons_zero]
        simp only [BakRead.encodeUnits]
        rw [if_neg h80', if_pos h800']
      · rw [BakRead.unitsBeforeNul_cons_ne _ _ hlow]
        simp only [BakRead.encodeUnits]
        rw [if_neg h80', if_pos h800']
  | case4 b0 b1 b2 b3 rest2 ch hz h80 h800 low hpair ih =>
      have hz' : ¬ b0 + 256 * b1 = 0 := hz
      have h80' : ¬ b0 + 256 * b1 < 128 := h80
      have h800' : ¬ b0 + 256 * b1 < 2048 := h800
      have hpair' : 55296 ≤ b0 + 256 * b1 ∧ b0 + 256 * b1 ≤ 56319 ∧
          56320 ≤ b2 + 256 * b3 ∧ b2 + 256 * b3 ≤ 57343 := hpair
      have hlow : ¬ b2 + 256 * b3 = 0 := by
        have := hpair'.2.2.1; omega
      simp only [BakRead.utf16Units] at ih ⊢
      rw [BakRead.unitsBeforeNul_cons_ne _ _ hz',
        BakRead.unitsBeforeNul_cons_ne _ _ hlow]
      simp only [BakRead.utf16le_to_utf8]
      rw [if_neg hz', if_neg h80', if_neg h800', if_pos hpair', ih]
      simp only [BakRead.encodeUnits]
      rw [if_neg h80', if_neg h800', if_pos hpair']
  | case5 b0 b1 b2 b3 rest2 ch hz h80 h800 low hpair ih =>
      have hz' : ¬ b0 + 256 * b1 = 0 := hz
      have h80' : ¬ b0 + 256 * b1 < 128 := h80
      have h800' : ¬ b0 + 256 * b1 < 2048 := h800
      have hpair' : ¬ (55296 ≤ b0 + 256 * b1 ∧ b0 + 256 * b1 ≤ 56319 ∧
          56320 ≤ b2 + 256 * b3 ∧ b2 + 256 * b3 ≤ 57343) := hpair
      simp only [BakRead.utf16Units] at ih ⊢
      rw [BakRead.unitsBeforeNul_cons_ne _ _ hz']
      simp only [BakRead.utf16le_to_utf8]
      rw [if_neg hz', if_neg h80', if_neg h800', if_neg hpair', ih]
      by_cases hlow : b2 + 256 * b3 = 0
      · rw [hlow, BakRead.unitsBeforeNul_cons_zero]
        simp only [BakRead.encodeUnits]
        rw [if_neg h80', if_neg h800']
      · rw [BakRead.unitsBeforeNul_cons_ne _ _ hlow]
        simp only [BakRead.encodeUnits]
        rw [if_neg h80', if_neg h800', if_neg hpair']
  | case6 b0 b1 rest hshort ch hz =>
      have hz' : b0 + 256 * b1 = 0 := hz
      simp only [BakRead.utf16Units]
      rw [hz', BakRead.unitsBeforeNul_cons_zero]
      rcases rest with _ | ⟨x, _ | ⟨y, ys⟩⟩
      · simp only [BakRead.utf16le_to_utf8, BakRead.encodeUnits]
        rw [if_pos hz']
      · simp only [BakRead.utf16le_to_utf8, BakRead.encodeUnits]
        rw [if_pos hz']
      · exact absurd rfl (hshort x y ys)
  | case7 b0 b1 rest hshort ch hz hlt ih =>
      have hz' : ¬ b0 + 256 * b1 = 0 := hz
      have hlt' : b0 + 256 * b1 < 128 := hlt
      simp only [BakRead.utf16Units]
      rcases rest with _ | ⟨x, _ | ⟨y, ys⟩⟩
      · rw [BakRead.unitsBeforeNul_cons_ne _ _ hz']
        simp only [BakRead.utf16le_to_utf8, BakRead.utf16Units,
          BakRead.unitsBeforeNul, List.takeWhile, BakRead.encodeUnits]
        rw [if_neg hz', if_pos hlt']
      · rw [BakRead.unitsBeforeNul_cons_ne _ _ hz']
        simp only [BakRead.utf16le_to_utf8, BakRead.utf16Units,
          BakRead.unitsBeforeNul, List.takeWhile, BakRead.encodeUnits]
        rw [if_neg hz', if_pos hlt']
      · exact absurd rfl (hshort x y ys)
  | case8 b0 b1 rest hshort ch hz h80 h800 ih =>
      have hz' : ¬ b0 + 256 * b1 = 0 := hz
      have h80' : ¬ b0 + 256 * b1 < 128 := h80
      have h800' : b0 + 256 * b1 < 2048 := h800
      simp only [BakRead.utf16Units]
      rcases rest with _ | ⟨x, _ | ⟨y, ys⟩⟩
      · rw [BakRead.unitsBeforeNul_cons_ne _ _ hz']
        simp only [BakRead.utf16le_to_utf8, BakRead.utf16Units,
          BakRead.unitsBeforeNul, List.takeWhile, BakRead.encodeUnits]
        rw [if_neg hz', if_neg h80', if_pos h800']
      · rw [BakRead.unitsBeforeNul_cons_ne _ _ hz']
        simp only [BakRead.utf16le_to_utf8, BakRead.utf16Units,
          BakRead.unitsBeforeNul, List.takeWhile, BakRead.encodeUnits]
        rw [if_neg hz', if_neg h80', if_pos h800']
      · exact absurd rfl (hshort x y ys)
  | case9 b0 b1 rest hshort ch hz h80 h800 ih =>
      have hz' : ¬ b0 + 256 * b1 = 0 := hz
      have h80' : ¬ b0 + 256 * b1 < 128 := h80
      have h800' : ¬ b0 + 256 * b1 < 2048 := h800
      simp only [BakRead.utf16Units]
      rcases rest with _ | ⟨x, _ | ⟨y, ys⟩⟩
      · rw [BakRead.unitsBeforeNul_cons_ne _ _ hz']
        simp only [BakRead.utf16le_to_utf8, BakRead.utf16Units,
          BakRead.unitsBeforeNul, List.takeWhile, BakRead.encodeUnits]
        rw [if_neg hz', if_neg h80', if_neg h800']
      · rw [BakRead.unitsBeforeNul_cons_ne _ _ hz']
        simp only [BakRead.utf16le_to_utf8, BakRead.utf16Units,
          BakRead.unitsBeforeNul, List.takeWhile, BakRead.encodeUnits]
        rw [if_neg hz', if_neg h80', if_neg h800']
      · exact absurd rfl (hshort x y ys)
  | case10 t h4 h2 =>
      rcases t with _ | ⟨x, _ | ⟨y, ys⟩⟩
      · simp [BakRead.utf16le_to_utf8, BakRead.utf16Units,
          BakRead.unitsBeforeNul, BakRead.encodeUnits]
      · simp [BakRead.utf16le_to_utf8, BakRead.utf16Units,
          BakRead.unitsBeforeNul, BakRead.encodeUnits]
      · exact absurd rfl (h2 x y ys)

/-- C6: the LZ decompressor refuses (returns 0) whenever a match
descriptor decodes an offset exceeding the bytes already written, and
every output byte written by a match copy with offset `o` equals the
output byte `o` positions earlier (`out[i] = out[i - o]`, copies being
byte-by-byte appends), so the decoder never reads unwritten output. The
trace `(…).2.2` names each match descriptor event `(pos, off, len)`
encountered by the code. -/
theorem C6_lz_match_safety (src : List Nat) (cap : Nat) :
    ((∃ e ∈ (BakRead.decompress_sqlserver_lz src cap).2.2, e.pos < e.off) →
      (BakRead.decompress_sqlserver_lz src cap).1 = 0) ∧
    (∀ e ∈ (BakRead.decompress_sqlserver_lz src cap).2.2, e.off ≤ e.pos →
      ∀ k, k < e.len →
        (BakRead.decompress_sqlserver_lz src cap).2.1.getD (e.pos + k) 0 =
          (BakRead.decompress_sqlserver_lz src cap).2.1.getD
            (e.pos + k - e.off) 0) := by
  unfold BakRead.decompress_sqlserver_lz
  split
  · refine ⟨?_, ?_⟩
    · intro ⟨e, he, _⟩; simp at he
    · intro e he; simp at he
  · obtain ⟨hpre, hevs, hbad⟩ := BakRead.lzOuter_invariant src cap
      (src.length + 1) 0 []
    refine ⟨hbad, fun e he hoff k hk => ?_⟩
    exact ((hevs e he) hoff).2 k hk

/-- C6 witness: on the concrete source `[2,0,0,0,65,0,0]` (flags word 2:
one literal then one match with offset 1, length 3) the traced event is
`(1, 1, 3)` and the copied bytes repeat the byte one position back. -/
theorem C6_lz_match_safety_witness :
    (BakRead.decompress_sqlserver_lz [2, 0, 0, 0, 65, 0, 0] 100).2.1.getD 2 0 =
      (BakRead.decompress_sqlserver_lz [2, 0, 0, 0, 65, 0, 0] 100).2.1.getD
        1 0 :=
  (C6_lz_match_safety [2, 0, 0, 0, 65, 0, 0] 100).2 ⟨1, 1, 3⟩ (by decide)
    (by decide) 1 (by decide)

/-- C7 (amended): for every page-index state with fewer than `2^32`
entries, `save_to_file` followed by `load_from_file` reconstructs exactly
the same entry list — the same `(file_id, page_id)` keys in order and,
for each, a byte-identical 16-byte entry. (The unamended claim, over
*every* state, fails because `entry_count` is written as a `uint32_t`
cast of the map size; see the counterexample.) -/
theorem C7_sidecar_roundtrip (l : List (Nat × BakRead.PageIndexEntry))
    (hwf : ∀ p ∈ l, p.1 < 18446744073709551616 ∧ BakRead.entryWF p.2)
    (hlen : l.length < 4294967296) :
    BakRead.load_from_file (BakRead.save_to_file l) = some l := by
  rw [BakRead.load_of_save, Nat.mod_eq_of_lt hlen]
  exact BakRead.parseIndexRecords_flatMap l hwf

/-- C7 witness: a one-entry index (key `(1 << 32) | 5`, a data page of
object 34 at offset 8192) survives the sidecar round trip. -/
theorem C7_sidecar_roundtrip_witness :
    BakRead.load_from_file (BakRead.save_to_file
        [(4294967301, ⟨0, 1, 34, 8192⟩)]) =
      some [(4294967301, ⟨0, 1, 34, 8192⟩)] :=
  C7_sidecar_roundtrip _ (by decide) (by decide)

/-- C7 counterexample: on the state with `2^32` entries the header's
`entry_count` (a `uint32_t` cast of the size) wraps to 0, so reloading
the sidecar yields the empty map, not the saved one. -/
theorem C7_sidecar_roundtrip_counterexample :
    BakRead.load_from_file (BakRead.save_to_file BakRead.hugeIndexState) ≠
      some BakRead.hugeIndexState := by
  rw [BakRead.load_of_save]
  have hlen : BakRead.hugeIndexState.length = 4294967296 := by
    simp [BakRead.hugeIndexState]
  rw [hlen, Nat.mod_self]
  simp only [BakRead.parseIndexRecords]
  intro h
  have h' : ([] : List (Nat × BakRead.PageIndexEntry)) =
      BakRead.hugeIndexState := Option.some.inj h
  have h0 : BakRead.hugeIndexState.length = 0 := by rw [← h']; rfl
  rw [hlen] at h0
  exact absurd h0 (by decide)

/-- C3: the claim says that once the consumer callback returns "stop",
no further row is ever delivered.  The code's `if (!callback(row))
break;` only leaves the per-page row loop; the page loop checks only the
row cap, so rows of subsequent candidate pages are still delivered.
With two candidate pages of one row each and a consumer that always
returns stop, the callback receives both rows (trace `[10, 20]`); only
later rows of the *same* page are suppressed (second conjunct). -/
theorem C3_stop_leaks_to_next_page :
    (BakRead.phase_extract_rows (fun _ : Nat => false) none [[10], [20]]
        0).2 = [10, 20] ∧
    (BakRead.phase_extract_rows (fun _ : Nat => false) none [[10, 11]]
        0).2 = [10] := by
  refine ⟨by decide, by decide⟩

/-- C1 counterexample: the indexed-mode stripe scan checks only
`this_page != 0 || this_file != 0` before inserting a window into the
page index, so the window of `c1BadChunk` (header_version 0, type 0,
this_file 0, this_page 5) is inserted even though it fails the
candidate-header test (`header_version == 1` among others). -/
theorem C1_indexed_scan_skips_header_test :
    (0, 5, 0) ∈ BakRead.scan_stripe_pages BakRead.c1BadChunk ∧
    BakRead.byteAt (BakRead.window BakRead.c1BadChunk 0) 0 ≠ 1 := by
  have hlen : BakRead.c1BadChunk.length = 8192 := by
    rw [BakRead.c1BadChunk]
    simp only [List.length_append, List.length_replicate]
    decide
  have hw : BakRead.window BakRead.c1BadChunk 0 = BakRead.c1BadChunk := by
    unfold BakRead.window
    rw [List.drop_zero, ← hlen, List.take_length]
  have hb : ∀ i, BakRead.byteAt BakRead.c1BadChunk i =
      BakRead.byteAt [0, 0, 0, 0, 0, 0, 0, 0, 0, 0, 0, 0, 0, 0, 0, 0, 0,
        0, 0, 0, 0, 0, 0, 0, 0, 0, 0, 0, 0, 0, 0, 0, 5, 0, 0, 0] i :=
    fun i => by
      rw [BakRead.c1BadChunk]
      exact BakRead.byteAt_append_replicate_zero _ _ i
  have h32 : BakRead.readU32 BakRead.c1BadChunk 32 = 5 := by
    unfold BakRead.readU32
    rw [hb 32, hb 33, hb 34, hb 35]
    decide
  have h36 : BakRead.readU16 BakRead.c1BadChunk 36 = 0 := by
    unfold BakRead.readU16
    rw [hb 36, hb 37]
    decide
  have h0 : BakRead.byteAt BakRead.c1BadChunk 0 = 0 := by
    rw [hb 0]
    decide
  constructor
  · unfold BakRead.scan_stripe_pages
    rw [hlen]
    have hstarts : BakRead.windowStarts 8192 8192 = [0] := by decide
    rw [hstarts]
    simp only [List.filterMap, hw, h32, h36]
    norm_num
  · rw [hw, h0]
    omega

/-- C1 (amended): every window cached by the non-indexed page scan of
`phase_load_pages` (both the 8 KiB pass and the 512-byte retry pass)
passes the candidate-header test: `header_version == 1`,
`1 ≤ type ≤ 17`, `1 ≤ this_file ≤ 32`, `slot_count ≤ 1000`,
`free_count ≤ 8192`, and `(this_page, this_file)` not both zero.  The
indexed-mode stripe scan checks only that `(this_page, this_file)` are
not both zero (see the counterexample). -/
theorem C1_nonindexed_scan_candidate_test (chunk : List Nat) (step : Nat)
    (f p off : Nat)
    (hmem : (f, p, off) ∈ BakRead.phase_load_cached_pages chunk step) :
    BakRead.byteAt (BakRead.window chunk off) 0 = 1 ∧
    1 ≤ BakRead.byteAt (BakRead.window chunk off) 1 ∧
    BakRead.byteAt (BakRead.window chunk off) 1 ≤ 17 ∧
    1 ≤ BakRead.readU16 (BakRead.window chunk off) 36 ∧
    BakRead.readU16 (BakRead.window chunk off) 36 ≤ 32 ∧
    BakRead.readU16 (BakRead.window chunk off) 22 ≤ 1000 ∧
    BakRead.readU16 (BakRead.window chunk off) 28 ≤ 8192 ∧
    ¬ (BakRead.readU32 (BakRead.window chunk off) 32 = 0 ∧
      BakRead.readU16 (BakRead.window chunk off) 36 = 0) := by
  unfold BakRead.phase_load_cached_pages at hmem
  obtain ⟨off1, _hoff, hsome⟩ := List.mem_filterMap.mp hmem
  split at hsome
  · rename_i hguard
    obtain ⟨h1, h2, h3, h4, h5, h6, h7⟩ := hguard
    cases hsome
    exact ⟨h1, h2, h3, h4, h5, h6, h7, fun ⟨_, hzero⟩ => by omega⟩
  · cases hsome

/-- C1 witness: the valid single-window chunk `c1GoodChunk` is cached by
the 8 KiB pass and its header satisfies the full candidate test. -/
theorem C1_nonindexed_scan_candidate_test_witness :
    BakRead.byteAt (BakRead.window BakRead.c1GoodChunk 0) 0 = 1 ∧
    1 ≤ BakRead.byteAt (BakRead.window BakRead.c1GoodChunk 0) 1 ∧
    BakRead.byteAt (BakRead.window BakRead.c1GoodChunk 0) 1 ≤ 17 ∧
    1 ≤ BakRead.readU16 (BakRead.window BakRead.c1GoodChunk 0) 36 ∧
    BakRead.readU16 (BakRead.window BakRead.c1GoodChunk 0) 36 ≤ 32 ∧
    BakRead.readU16 (BakRead.window BakRead.c1GoodChunk 0) 22 ≤ 1000 ∧
    BakRead.readU16 (BakRead.window BakRead.c1GoodChunk 0) 28 ≤ 8192 ∧
    ¬ (BakRead.readU32 (BakRead.window BakRead.c1GoodChunk 0) 32 = 0 ∧
      BakRead.readU16 (BakRead.window BakRead.c1GoodChunk 0) 36 = 0) :=
  C1_nonindexed_scan_candidate_test BakRead.c1GoodChunk 8192 1 5 0
    (by
      have hlen : BakRead.c1GoodChunk.length = 8192 := by
        rw [BakRead.c1GoodChunk]
        simp only [List.length_append, List.length_replicate]
        decide
      have hw : BakRead.window BakRead.c1GoodChunk 0 =
          BakRead.c1GoodChunk := by
        unfold BakRead.window
        rw [List.drop_zero, ← hlen, List.take_length]
      have hb : ∀ i, BakRead.byteAt BakRead.c1GoodChunk i =
          BakRead.byteAt [1, 1, 0, 0, 0, 0, 0, 0, 0, 0, 0, 0, 0, 0, 0, 0,
            0, 0, 0, 0, 0, 0, 0, 0, 0, 0, 0, 0, 0, 0, 0, 0, 5, 0, 0, 0,
            1, 0] i :=
        fun i => by
          rw [BakRead.c1GoodChunk]
          exact BakRead.byteAt_append_replicate_zero _ _ i
      unfold BakRead.phase_load_cached_pages
      rw [hlen]
      have hstarts : BakRead.windowStarts 8192 8192 = [0] := by decide
      rw [hstarts]
      simp only [List.filterMap, hw, BakRead.readU16, BakRead.readU32,
        hb 0, hb 1, hb 22, hb 23, hb 28, hb 29, hb 32, hb 33, hb 34,
        hb 35, hb 36, hb 37]
      norm_num [BakRead.byteAt])

/-- Evaluation helper for the C5/C9 witnesses: on a 512-byte all-zero
file the block scan probes only offset 0, finds no signature, and
`parse` returns the synthesized default backup set with
`data_start_offset = 0`. -/
theorem parse_all_zero_512 :
    BakRead.parse (List.replicate 512 0) =
      Except.ok (true, ⟨[BakRead.defaultBackupSet], 0, []⟩) := by
  have hlen : (List.replicate 512 (0 : Nat)).length = 512 :=
    List.length_replicate 512 0
  have hscan : BakRead.mtf_block_scan (List.replicate 512 0) = [] := by
    unfold BakRead.mtf_block_scan
    rw [hlen]
    norm_num
    unfold BakRead.mtfScanBlocks
    rw [hlen]
    have h0 : BakRead.readU32 (List.replicate 512 0) 0 = 0 := by
      unfold BakRead.readU32
      rw [BakRead.byteAt_replicate_zero, BakRead.byteAt_replicate_zero,
        BakRead.byteAt_replicate_zero, BakRead.byteAt_replicate_zero]
    rw [h0]
    norm_num [BakRead.is_mtf_signature, BakRead.mtfScanBlocks]
  have hsets : BakRead.structuredSets (List.replicate 512 0) = [] := by
    unfold BakRead.structuredSets
    rw [hscan]
    rfl
  unfold BakRead.parse
  rw [if_neg (by omega)]
  rw [hscan, hsets]
  rfl

/-- C5 (amended): for every input file of at least 512 bytes — the size
below which `parse` throws `BackupFormatError`, see the counterexample —
`parse` returns normally (`true`) with a best-effort backup info whose
`data_start_offset` defaults to 0 when no MTF blocks were recorded. -/
theorem C5_parse_total_from_512 (file : List Nat)
    (h : 512 ≤ file.length) :
    ∃ r : BakRead.ParseResult,
      BakRead.parse file = Except.ok (true, r) ∧
      (r.blocks = [] → r.data_start_offset = 0) := by
  unfold BakRead.parse
  rw [if_neg (by omega)]
  refine ⟨_, rfl, fun hb => ?_⟩
  simp only at hb ⊢
  rw [hb]
  rfl

/-- C5 witness: the 512-byte all-zero file (no MTF signature anywhere)
is parsed without an exception. -/
theorem C5_parse_total_from_512_witness :
    ∃ r : BakRead.ParseResult,
      BakRead.parse (List.replicate 512 0) = Except.ok (true, r) ∧
      (r.blocks = [] → r.data_start_offset = 0) :=
  C5_parse_total_from_512 (List.replicate 512 0)
    (by rw [List.length_replicate])

/-- C5 counterexample: a 100-byte input was accepted by the stripe
reader (it only rejects missing or empty files), yet `parse` throws
`BackupFormatError` ("File too small to be a valid backup",
`backup_header.cpp:67`) instead of returning a best-effort info. -/
theorem C5_parse_throws_under_512 :
    BakRead.parse (List.replicate 100 0) = Except.error () := by
  unfold BakRead.parse
  rw [if_pos (by rw [List.length_replicate]; omega)]

/-- C9: whenever `parse` returns, the backup-set list is non-empty: if
structured parsing (phases 1–2) produced no set, phase 3 synthesizes
the default set (position 1, `BackupType::Full`, encryption and TDE
flags false) before returning. -/
theorem C9_parse_sets_nonempty (file : List Nat)
    (r : Bool × BakRead.ParseResult)
    (h : BakRead.parse file = Except.ok r) :
    r.2.backup_sets ≠ [] ∧
    (BakRead.structuredSets file = [] →
      r.2.backup_sets = [BakRead.defaultBackupSet]) := by
  unfold BakRead.parse at h
  split at h
  · cases h
  · cases h
    constructor
    · by_cases hs : BakRead.structuredSets file = [] <;> simp [hs]
    · intro hs
      simp [hs]

/-- C9 witness: on the 512-byte all-zero file structured parsing finds
nothing and the returned list is exactly the synthesized default set. -/
theorem C9_parse_sets_nonempty_witness :
    ((true, (⟨[BakRead.defaultBackupSet], 0, []⟩ :
        BakRead.ParseResult))).2.backup_sets ≠ [] ∧
    (BakRead.structuredSets (List.replicate 512 0) = [] →
      ((true, (⟨[BakRead.defaultBackupSet], 0, []⟩ :
          BakRead.ParseResult))).2.backup_sets =
        [BakRead.defaultBackupSet]) :=
  C9_parse_sets_nonempty (List.replicate 512 0) _ parse_all_zero_512

/-- C8: for every record and schema, a column whose bit is set in the
record's null bitmap (as `decode_row` reads it) decodes to the null
token, regardless of the bytes at the column's fixed offset or
variable-length range — both column branches test the null bit before
touching any data byte. -/
theorem C8_null_bit_yields_null_token (cols : List BakRead.ColumnDef)
    (page : List Nat) (offset ci : Nat) (row : List BakRead.RowValue)
    (hdec : BakRead.decode_row cols page offset = some row)
    (hbit : BakRead.record_null_bits cols.length page offset ci = true) :
    row.getD ci .null = .null := by
  unfold BakRead.decode_row at hdec
  simp only [] at hdec
  split at hdec
  · cases hdec
  · split at hdec
    · cases hdec
    · rw [Option.some.injEq] at hdec
      rcases Nat.lt_or_ge ci cols.length with hlt | hge
      · rw [← hdec, List.getD_eq_getElem?_getD, List.getElem?_map,
          List.getElem?_range hlt]
        have hbit' :
            (BakRead.null_area_info page offset
              (BakRead.readU16 page (offset + 2)) (8192 - offset)
              (BakRead.byteAt page offset &&& 0x10 ≠ 0) cols.length).2
              ci = true := hbit
        simp only [Option.map_some', Option.getD_some, hbit', if_true]
      · rw [← hdec, List.getD_eq_default]
        simp [hge]

/-- C8 witness: on `c8Page`'s record (one nullable int column with
non-zero data bytes, null bit set) `decode_row` yields the null token
for column 0. -/
theorem C8_null_bit_yields_null_token_witness :
    ([BakRead.RowValue.null] : List BakRead.RowValue).getD 0 .null =
      .null :=
  C8_null_bit_yields_null_token [⟨.IntTy, 4, 0, 0⟩] BakRead.c8Page 96 0
    [.null] (by decide) (by decide)

/-- C2: the claim says a 3-byte `date` value `n` renders the proleptic
Gregorian date exactly `n` days after 0001-01-01, in particular `n = 0`
renders "0001-01-01".  The code disagrees: `days_to_ymd` shifts by 305
(not 306) and pre-increments the year, so `n = 0` renders "0001-12-31",
and e.g. `n = 738885` (the `DATE` encoding of 2024-01-01) renders
"2024-12-31". -/
theorem C2_decode_date_epoch_bug :
    BakRead.decode_date [0, 0, 0] = "0001-12-31" ∧
    BakRead.days_to_ymd 0 = (1, 12, 31) ∧
    BakRead.days_to_ymd 738885 = (2024, 12, 31) ∧
    "0001-12-31" ≠ "0001-01-01" := by
  refine ⟨by decide, by decide, by decide, by decide⟩

/-- Evaluating the map built by `updPairs` at one key is the fold of the
assignments over the key's previous value. -/
theorem BakRead.updPairs_apply {B : Type} (ps : List (Nat × B))
    (m : Nat → Option B) (k : Nat) :
    BakRead.updPairs m ps k =
      ps.foldl (fun acc p => if k = p.1 then some p.2 else acc) (m k) := by
  induction ps generalizing m with
  | nil => rfl
  | cons p ps ih => exact ih (fun j => if j = p.1 then some p.2 else m j)

/-- The value-picking fold over an assignment list either settles on an
assignment to `k` (independent of the accumulator) or returns the
accumulator. -/
theorem BakRead.foldl_pick {B : Type} (k : Nat) (ps : List (Nat × B))
    (a : Option B) :
    ps.foldl (fun acc p => if k = p.1 then some p.2 else acc) a =
      (ps.foldl (fun acc p => if k = p.1 then some p.2 else acc) none).or a := by
  induction ps generalizing a with
  | nil => simp
  | cons p ps ih =>
    simp only [List.foldl_cons]
    rw [ih, ih (if k = p.1 then some p.2 else none)]
    cases hL : ps.foldl (fun acc p => if k = p.1 then some p.2 else acc) none <;>
      by_cases h : k = p.1 <;> simp [h, Option.or]

/-- Replaying the same assignment list over an already-updated map
changes nothing: last-writer-wins map writes are idempotent. -/
theorem BakRead.updPairs_idem {B : Type} (ps : List (Nat × B))
    (m : Nat → Option B) (k : Nat) :
    BakRead.updPairs (BakRead.updPairs m ps) ps k =
      BakRead.updPairs m ps k := by
  have h1 := BakRead.updPairs_apply ps (BakRead.updPairs m ps) k
  have h2 := BakRead.foldl_pick k ps (BakRead.updPairs m ps k)
  have h3 := BakRead.foldl_pick k ps (m k)
  have h4 := BakRead.updPairs_apply ps m k
  rw [h1, h2]
  cases hL : List.foldl (fun acc p => if k = p.1 then some p.2 else acc)
      none ps with
  | none => simp [Option.or]
  | some v =>
    rw [h4, h3, hL]
    simp [Option.or]

/-- C4 (amended): `scan_catalog` is idempotent on the objects map and
the object-id → page-obj-id map — both are written with last-writer-wins
assignments computed from the corpus alone, so a second run over the
same corpus rewrites the identical values (and an aborted run leaves the
state untouched).  The per-object column lists are excluded: they are
not idempotent (see the counterexample). -/
theorem C4_rescan_preserves_objects_and_objmap
    (corpus : Nat → Nat → Option (Nat → Nat)) (k : Nat) :
    ((BakRead.scan_catalog corpus
          (BakRead.scan_catalog corpus BakRead.initCatalogState).2).2.objects k =
        (BakRead.scan_catalog corpus BakRead.initCatalogState).2.objects k) ∧
      ((BakRead.scan_catalog corpus
          (BakRead.scan_catalog corpus
            BakRead.initCatalogState).2).2.obj_to_page_objid k =
        (BakRead.scan_catalog corpus
          BakRead.initCatalogState).2.obj_to_page_objid k) := by
  cases hb : BakRead.read_boot_page corpus with
  | false => simp [BakRead.scan_catalog, hb]
  | true =>
    simp only [BakRead.scan_catalog, hb, Bool.true_eq_false, not_false_eq_true,
      not_true_eq_false, if_false, if_true, Bool.not_true, ite_false, ite_true]
    exact ⟨BakRead.updPairs_idem _ _ _, BakRead.updPairs_idem _ _ _⟩

set_option maxRecDepth 20000 in
/-- C4 counterexample: on a corpus with a boot page, one `sysschobjs`
page and one `syscolpars` page, the column list of object 1000 has one
entry after the first `scan_catalog` run and two after the second —
`scan_system_columns` appends (`columns_[id].push_back`) instead of
assigning, so rescanning doubles every column list and the full-state
idempotence claimed for the three maps fails. -/
theorem C4_column_list_doubles_on_rescan :
    ((BakRead.scan_catalog BakRead.c4Corpus
          BakRead.initCatalogState).2.columns 1000).length = 1 ∧
      ((BakRead.scan_catalog BakRead.c4Corpus
          (BakRead.scan_catalog BakRead.c4Corpus
            BakRead.initCatalogState).2).2.columns 1000).length = 2 := by
  decide
